import Mathlib

/- Verification of the URL-templating and interactive-explorer logic of the
web-map-feature-services cookbook (notebooks/web_map_services.ipynb and
notebooks/nasa_earthdata_gibs_explorer.ipynb).

Strings (URLs, templates, layer identifiers) are modelled as lists of
characters.  Python's str.replace is modelled by pyReplace; the explorer's
widget state is modelled by an explicit record.  Behaviour of external
collaborators (the capabilities service, the datetime library, the widget
toolkit) is modelled only to the extent the notebooks rely on it, and each
such modelling choice is noted on the definition. -/

namespace Cookbook

/-- Characters that can occur in the decimal-string form of a bounding-box
coordinate (digits, sign, decimal point). -/
def isDec (c : Char) : Prop := c.isDigit ∨ c = '-' ∨ c = '.'

instance (c : Char) : Decidable (isDec c) := by
  unfold isDec; infer_instance

/-- A non-empty string all of whose characters are decimal-coordinate
characters: the shape of the decimal-string form of a bounding-box
coordinate. -/
def DecStr (s : List Char) : Prop := s ≠ [] ∧ ∀ c ∈ s, isDec c

instance (s : List Char) : Decidable (DecStr s) := by
  unfold DecStr; infer_instance

/-- Python str.replace, fuelled recursion (the fuel is only a structural
termination device; with fuel at least the string length it never runs
out). -/
def pyReplaceF (pat rep : List Char) : Nat → List Char → List Char
  | 0, s => s
  | _ + 1, [] => []
  | fuel + 1, c :: cs =>
    if pat ≠ [] ∧ pat <+: (c :: cs) then
      rep ++ pyReplaceF pat rep fuel (cs.drop (pat.length - 1))
    else
      c :: pyReplaceF pat rep fuel cs

/-- Python str.replace modelled on lists of characters: scan left to right,
replacing each non-overlapping occurrence of pat by rep.  (Python's
degenerate behaviour on an empty pattern is not modelled; every pattern the
notebooks substitute is a non-empty coordinate or placeholder string.) -/
def pyReplace (pat rep : List Char) (s : List Char) : List Char :=
  pyReplaceF pat rep s.length s

/-- Number of positions of a string at which pat occurs (occurrences counted
at every starting position, overlaps included). -/
def countOcc (pat : List Char) : List Char → Nat
  | [] => if pat = [] then 1 else 0
  | c :: cs => (if pat <+: (c :: cs) then 1 else 0) + countOcc pat cs

/-- Overlap-freedom of a pattern with respect to an inserted block M: no
occurrence of pat can start inside the block, and no occurrence can cross
from the left into the block. -/
def PairHyp (pat M : List Char) : Prop :=
  (∀ k r, k < M.length → ¬ pat <+: M.drop k ++ r) ∧
  (∀ l r, l.length < pat.length → ¬ pat <+: l ++ (M ++ r))

/-- A chain of replacements, applied left to right (models chained
.replace calls). -/
def applySubs (subs : List (List Char × List Char)) (u : List Char) : List Char :=
  subs.foldl (fun acc x => pyReplace x.1 x.2 acc) u

/-- str(XMIN) for the notebook constant XMIN = -20037507.539400 (Python's
shortest round-trip decimal form drops the trailing zeros of the literal). -/
def strXMIN : List Char := "-20037507.5394".toList

/-- str(YMIN) for YMIN = 1638517.444800. -/
def strYMIN : List Char := "1638517.4448".toList

/-- str(XMAX) for XMAX = 20037260.918700. -/
def strXMAX : List Char := "20037260.9187".toList

/-- str(YMAX) for YMAX = 7714669.39460. -/
def strYMAX : List Char := "7714669.3946".toList

def phXMIN : List Char := "{XMIN}".toList

def phYMIN : List Char := "{YMIN}".toList

def phXMAX : List Char := "{XMAX}".toList

def phYMAX : List Char := "{YMAX}".toList

/-- The substitution step shared by formulate_url_template
(web_map_services.ipynb) and NasaEarthDataGibsWmsExplorer.get_url_template
(nasa_earthdata_gibs_explorer.ipynb):
url.replace(str(XMIN), "left-brace XMIN right-brace")... chained over the
four coordinates in the order XMIN, YMIN, XMAX, YMAX, generalized over the
four coordinate strings of the reference bounds. -/
def buildTemplate (sx sy sxx syy : List Char) (url : List Char) : List Char :=
  pyReplace syy phYMAX (pyReplace sxx phXMAX (pyReplace sy phYMIN
    (pyReplace sx phXMIN url)))

/-- formulate_url_template from web_map_services.ipynb: the substitution
specialized to the notebooks' global reference bounds. -/
def formulate_url_template (url : List Char) : List Char :=
  buildTemplate strXMIN strYMIN strXMAX strYMAX url

/-- Substituting the bounding box back into the placeholders of a template:
the round-trip direction of the template law (stated by the spec, not a
notebook function). -/
def instantiateTemplate (sx sy sxx syy : List Char) (t : List Char) : List Char :=
  pyReplace phYMAX syy (pyReplace phXMAX sxx (pyReplace phYMIN sy
    (pyReplace phXMIN sx t)))

/-- A fixed request template containing the four placeholders once each, in
bounding-box parameter order, with arbitrary surrounding text A0..A4. -/
def tmplOf (A0 A1 A2 A3 A4 : List Char) : List Char :=
  A0 ++ (phXMIN ++ (A1 ++ (phYMIN ++ (A2 ++ (phXMAX ++ (A3 ++ (phYMAX ++ A4)))))))

/-- The concrete URL obtained by substituting the bounding-box coordinate
strings into the fixed request template tmplOf A0 A1 A2 A3 A4. -/
def urlOf (sx sy sxx syy A0 A1 A2 A3 A4 : List Char) : List Char :=
  A0 ++ (sx ++ (A1 ++ (sy ++ (A2 ++ (sxx ++ (A3 ++ (syy ++ A4)))))))

/-- The sentinel product name for layer identifiers without an underscore. -/
def miscKey : List Char := "Miscellaneous".toList

/-- The sentinel time value for layers without a temporal dimension. -/
def strNA : List Char := "N/A".toList

/-- Python's str(None), produced when an f-string interpolates None. -/
def pyNone : List Char := "None".toList

/-- Split a string at the first occurrence of sep; none when sep is absent
(models layer.split(sep, 1) guarded by sep in layer). -/
def splitFirst (sep : Char) : List Char → Option (List Char × List Char)
  | [] => none
  | c :: cs =>
    if c = sep then some ([], cs)
    else
      match splitFirst sep cs with
      | none => none
      | some (a, b) => some (c :: a, b)

/-- Ordered-dictionary lookup on an association list (Python dict access). -/
def lookupB (cat : List (List Char × List (List Char))) (k : List Char) :
    Option (List (List Char)) :=
  match cat with
  | [] => none
  | (k', v) :: rest => if k' = k then some v else lookupB rest k

/-- products_layers[k].append(v), creating the bucket first when absent
(models the `if product not in self.products_layers` guard followed by
append; Python dicts preserve insertion order). -/
def insertAppend (cat : List (List Char × List (List Char))) (k v : List Char) :
    List (List Char × List (List Char)) :=
  match cat with
  | [] => [(k, [v])]
  | (k', vs) :: rest =>
    if k' = k then (k', vs ++ [v]) :: rest else (k', vs) :: insertAppend rest k v

/-- One iteration of the catalog-building loop in
NasaEarthDataGibsWmsExplorer.__init__. -/
def addLayer (cat : List (List Char × List (List Char))) (layer : List Char) :
    List (List Char × List (List Char)) :=
  match splitFirst '_' layer with
  | some (product, product_layer) => insertAppend cat product product_layer
  | none => insertAppend cat miscKey layer

/-- The catalog-building loop, seeded with the empty Miscellaneous bucket. -/
def buildCatalog (layers : List (List Char)) :
    List (List Char × List (List Char)) :=
  layers.foldl addLayer [(miscKey, [])]

/-- Python string comparison (lexicographic by code point; a proper prefix
is smaller). -/
def charsLe : List Char → List Char → Bool
  | [], _ => true
  | _ :: _, [] => false
  | a :: as, b :: bs => if a = b then charsLe as bs else decide (a < b)

def insertSorted (x : List Char) : List (List Char) → List (List Char)
  | [] => [x]
  | y :: ys => if charsLe x y then x :: y :: ys else y :: insertSorted x ys

/-- Python sorted() on a list of strings.  (Insertion sort; since string
comparison is a total order, the sorted permutation is unique, so this
agrees with Python's sort.) -/
def pySorted (ls : List (List Char)) : List (List Char) :=
  ls.foldr insertSorted []

/-- self.products_layers as built by NasaEarthDataGibsWmsExplorer.__init__
from the capabilities service's flat list of layer identifiers
(layers = sorted(self.wms.contents), then the bucketing loop). -/
def explorer_products_layers (contents : List (List Char)) :
    List (List Char × List (List Char)) :=
  buildCatalog (pySorted contents)

/-- The product bucket and stored layer name an identifier is assigned to:
split on the first underscore, or the Miscellaneous sentinel. -/
def bucketOf (L : List Char) : List Char × List Char :=
  match splitFirst '_' L with
  | some pr => pr
  | none => (miscKey, L)

/-- Total number of stored layer names across all product buckets. -/
def totalEntries (cat : List (List Char × List (List Char))) : Nat :=
  (cat.map (fun x => x.2.length)).sum

/-- The options of the Product select widget: sorted(self.products_layers). -/
def product_options (contents : List (List Char)) : List (List Char) :=
  pySorted ((explorer_products_layers contents).map Prod.fst)

/-- Python's `a or b` on optional strings: a if a is truthy (not None and
not empty), else b. -/
def orElse (a b : Option (List Char)) : Option (List Char) :=
  match a with
  | some s => if s = [] then b else some s
  | none => b

/-- f-string interpolation of an optional string (None renders as "None"). -/
def pyStrO (v : Option (List Char)) : List Char := v.getD pyNone

/-- NasaEarthDataGibsWmsExplorer.get_layer: product and product_layer
arguments defaulting to the select widgets' current values via Python `or`;
the Miscellaneous sentinel leaves the layer identifier unqualified,
otherwise product and layer are joined by an underscore in an f-string. -/
def get_layer (product_widget : List Char) (layer_widget : Option (List Char))
    (product product_layer : Option (List Char)) : Option (List Char) :=
  let p := (orElse product (some product_widget)).getD []
  if p = miscKey then orElse product_layer layer_widget
  else some (p ++ ('_' :: pyStrO (orElse product_layer layer_widget)))

/-- The explorer's widget state: the catalog plus the current values and
options of the Product select, Layer select and Time slider. -/
structure Explorer where
  products_layers : List (List Char × List (List Char))
  product_value : List Char
  layer_options : List (List Char)
  layer_value : Option (List Char)
  time_options : List (List Char)
  time_value : Option (List Char)

/-- Modelled from the spec: when a select/slider widget's options are
replaced, the UI control forces the current value to remain a member of the
options, picking the first option when the old value is absent ("this
implicitly forces a new current layer to be chosen by the UI control");
with an empty option list there is no value to choose. -/
def coerce_value (opts : List (List Char)) (v : Option (List Char)) :
    Option (List Char) :=
  match v with
  | some x => if x ∈ opts then some x else opts.head?
  | none => opts.head?

/-- NasaEarthDataGibsWmsExplorer.update_layers, triggered by a change of the
Product select to `product`: replaces the Layer select's options with the
sorted bucket of the new product.  (A product outside the catalog would
raise a KeyError in the source; products always come from the catalog's
keys, and the model reads an empty bucket in that impossible case.) -/
def update_layers (e : Explorer) (product : List Char) : Explorer :=
  let product_layers := (lookupB e.products_layers product).getD []
  let opts := pySorted product_layers
  { e with product_value := product, layer_options := opts,
           layer_value := coerce_value opts e.layer_value }

/-- Per-layer metadata exposed by the capabilities service (the slice of
owslib's contents the explorer reads). -/
structure LayerMeta where
  timepositions : Option (List (List Char))
deriving DecidableEq

/-- Splitting on every occurrence of a character (Python str.split), with
explicit fuel for termination. -/
def splitOnCharF (sep : Char) : Nat → List Char → List (List Char)
  | 0, s => [s]
  | fuel + 1, s =>
    match splitFirst sep s with
    | none => [s]
    | some (a, b) => a :: splitOnCharF sep fuel b

/-- Python str.split(sep) on character lists. -/
def splitOnChar (sep : Char) (s : List Char) : List (List Char) :=
  splitOnCharF sep s.length s

def digitsToNat (ds : List Char) : Nat :=
  ds.foldl (fun acc c => acc * 10 + (c.toNat - 48)) 0

/-- Parse a non-empty run of leading digits. -/
def parseNatPart (s : List Char) : Option (Nat × List Char) :=
  let ds := s.takeWhile (fun c => c.isDigit)
  if ds = [] then none else some (digitsToNat ds, s.dropWhile (fun c => c.isDigit))

def timeUnitSecs (c : Char) : Option Int :=
  if c = 'H' then some 3600 else if c = 'M' then some 60
  else if c = 'S' then some 1 else none

/-- The time components of an ISO-8601 duration (after the T designator):
a non-empty sequence of number/unit pairs, in seconds. -/
def parseTimeSeqAux : Nat → List Char → Option Int
  | 0, _ => none
  | _ + 1, [] => none
  | fuel + 1, s =>
    match parseNatPart s with
    | some (n, u :: rest) =>
      match timeUnitSecs u with
      | some k =>
        if rest = [] then some ((n : Int) * k)
        else (parseTimeSeqAux fuel rest).map (fun t => (n : Int) * k + t)
      | none => none
    | _ => none

/-- Model of the external duration constructor (pd.Timedelta) on the
ISO-8601 duration strings that WMS temporal extents use: P followed by an
optional day or week component and an optional T-prefixed time part, in
seconds.  Calendar-length designators (years, months) are not a fixed
duration and are rejected, which is exactly the failure the notebook's
fallback branch catches. -/
def pdTimedelta (s : List Char) : Option Int :=
  match s with
  | 'P' :: rest =>
    match rest with
    | 'T' :: t => parseTimeSeqAux t.length t
    | _ =>
      match parseNatPart rest with
      | some (n, 'D' :: more) =>
        match more with
        | [] => some ((n : Int) * 86400)
        | 'T' :: t => (parseTimeSeqAux t.length t).map (fun x => (n : Int) * 86400 + x)
        | _ => none
      | some (n, 'W' :: more) =>
        match more with
        | [] => some ((n : Int) * 604800)
        | 'T' :: t => (parseTimeSeqAux t.length t).map (fun x => (n : Int) * 604800 + x)
        | _ => none
      | _ => none
  | _ => none

/-- Python step.lstrip("P"): drop every leading P. -/
def lstripP (s : List Char) : List Char := s.dropWhile (fun c => c = 'P')

/-- The try/except of NasaEarthDataGibsWmsExplorer.update_time: the
frequency is the parsed Timedelta when the primary parse succeeds, and
otherwise the period string with its leading P designator stripped (to be
interpreted by the date-range machinery as a frequency alias such as a
count of days).  The duration parser is a parameter: it is an external
collaborator. -/
def computeFreq (parse : List Char → Option Int) (step : List Char) :
    Int ⊕ List Char :=
  match parse step with
  | some f => Sum.inl f
  | none => Sum.inr (lstripP step)

/-- Model of the external date-range machinery's fixed-length frequency
aliases ("1D" is one day, etc.); an alias without a count means one unit.
Calendar-anchored aliases (months, years, weeks) step by calendar rules in
the external library and are outside this model. -/
def alias_seconds (s : List Char) : Option Int :=
  let n := match parseNatPart s with
    | some (n, _) => n
    | none => 1
  let unit := match parseNatPart s with
    | some (_, r) => r
    | none => s
  match unit with
  | ['D'] => some ((n : Int) * 86400)
  | ['H'] => some ((n : Int) * 3600)
  | ['T'] => some ((n : Int) * 60)
  | ['S'] => some (n : Int)
  | _ => none

/-- The frequency, in seconds, that the date-range materialization steps
by: either the parsed Timedelta or a fixed-length alias. -/
def freq_seconds (parse : List Char → Option Int) (step : List Char) :
    Option Int :=
  match computeFreq parse step with
  | Sum.inl f => some f
  | Sum.inr a => alias_seconds a

/-- n equally spaced timestamps starting at start. -/
def rangeList (start step : Int) : Nat → List Int
  | 0 => []
  | n + 1 => start :: rangeList (start + step) step n

/-- Model of the external pd.date_range(ini, fin, freq) for a positive
fixed-length frequency: all timestamps ini, ini+f, ... that are at most
fin.  A non-positive frequency or an empty interval yields no timestamps. -/
def date_range (ini fin f : Int) : List Int :=
  if 0 < f ∧ ini ≤ fin then
    rangeList ini f (((fin - ini) / f).toNat + 1)
  else []

/-- Civil date from days since 1970-01-01 (proleptic Gregorian). -/
def civilFromDays (z0 : Int) : Int × Int × Int :=
  let z := z0 + 719468
  let era := z / 146097
  let doe := z - era * 146097
  let yoe := (doe - doe / 1460 + doe / 36524 - doe / 146096) / 365
  let y := yoe + era * 400
  let doy := doe - (365 * yoe + yoe / 4 - yoe / 100)
  let mp := (5 * doy + 2) / 153
  let d := doy - (153 * mp + 2) / 5 + 1
  let m := mp + (if mp < 10 then 3 else -9)
  (y + (if m ≤ 2 then 1 else 0), m, d)

/-- Days since 1970-01-01 from a civil date (proleptic Gregorian). -/
def daysFromCivil (y m d : Int) : Int :=
  let y2 := y - (if m ≤ 2 then 1 else 0)
  let era := y2 / 400
  let yoe := y2 - era * 400
  let mp := (m + 9) % 12
  let doy := (153 * mp + 2) / 5 + d - 1
  let doe := yoe * 365 + yoe / 4 - yoe / 100 + doy
  era * 146097 + doe - 719468

def digitChar (n : Nat) : Char := Char.ofNat (48 + n % 10)

def natCharsAux : Nat → Nat → List Char
  | 0, _ => []
  | _ + 1, 0 => []
  | fuel + 1, n => natCharsAux fuel (n / 10) ++ [digitChar n]

/-- A natural number as decimal digits, left-padded with zeros to width w. -/
def padNat (w n : Nat) : List Char :=
  let ds := if n = 0 then ['0'] else natCharsAux n n
  List.replicate (w - ds.length) '0' ++ ds

/-- Model of strftime("%Y-%m-%dT%H:%M:%SZ") on an epoch-seconds timestamp
(UTC, proleptic Gregorian). -/
def epochToIso (t : Int) : List Char :=
  match civilFromDays (t / 86400) with
  | (y, m, d) =>
    let secs := (t % 86400).toNat
    padNat 4 y.toNat ++ ('-' :: padNat 2 m.toNat) ++ ('-' :: padNat 2 d.toNat)
      ++ ('T' :: padNat 2 (secs / 3600)) ++ (':' :: padNat 2 (secs % 3600 / 60))
      ++ (':' :: padNat 2 (secs % 60)) ++ ['Z']

def parseDigitsAux : Nat → Nat → List Char → Option (Nat × List Char)
  | 0, acc, s => some (acc, s)
  | _ + 1, _, [] => none
  | k + 1, acc, c :: s =>
    if c.isDigit then parseDigitsAux k (acc * 10 + (c.toNat - 48)) s else none

def expectChar (c : Char) : List Char → Option (List Char)
  | d :: s => if d = c then some s else none
  | [] => none

/-- Model of the external timestamp parsing used by the date-range
machinery, on the forms WMS temporal extents use: YYYY-MM-DD with an
optional THH:MM:SS and optional trailing Z; epoch seconds, UTC. -/
def parseTs (s : List Char) : Option Int := do
  let (y, s) ← parseDigitsAux 4 0 s
  let s ← expectChar '-' s
  let (mo, s) ← parseDigitsAux 2 0 s
  let s ← expectChar '-' s
  let (d, s) ← parseDigitsAux 2 0 s
  match s with
  | [] => some (86400 * daysFromCivil (y : Int) (mo : Int) (d : Int))
  | 'T' :: s => do
    let (hh, s) ← parseDigitsAux 2 0 s
    let s ← expectChar ':' s
    let (mi, s) ← parseDigitsAux 2 0 s
    let s ← expectChar ':' s
    let (ss, s) ← parseDigitsAux 2 0 s
    if s = [] ∨ s = ['Z'] then
      some (86400 * daysFromCivil (y : Int) (mo : Int) (d : Int)
        + 3600 * (hh : Int) + 60 * (mi : Int) + (ss : Int))
    else none
  | _ => none

/-- NasaEarthDataGibsWmsExplorer.update_time, triggered by a change of the
Layer select: looks up the current layer's temporal extent, materializes
the time options, and updates the Time slider.  The capabilities service
(contents) and the duration parser are parameters: they are external
collaborators.  A none result models an exception escaping the handler
(missing layer, malformed descriptor, unparsable timestamps, or a
calendar-anchored fallback frequency, which is outside the date-range
model). -/
def update_time (contents : List Char → Option LayerMeta)
    (parse : List Char → Option Int) (e : Explorer) : Option Explorer :=
  match get_layer e.product_value e.layer_value none none with
  | none => none
  | some layer =>
    match contents layer with
    | none => none
    | some meta =>
      match meta.timepositions.getD [] with
      | [] =>
        some { e with time_options := [strNA],
                      time_value := coerce_value [strNA] e.time_value }
      | tp0 :: _ =>
        match splitOnChar '/' tp0 with
        | [ini, fin, step] =>
          match freq_seconds parse step with
          | none => none
          | some fs =>
            match parseTs ini, parseTs fin with
            | some ti, some tf =>
              match (date_range ti tf fs).map epochToIso with
              | [] => some e
              | o :: os =>
                some { e with time_options := o :: os, time_value := some o }
            | _, _ => none
        | _ => none

/-- The keyword arguments of the wms.getmap call in
NasaEarthDataGibsWmsExplorer.get_url_template (the bounding box recorded by
the decimal-string forms of its four float coordinates). -/
structure GetMapArgs where
  layers : List (List Char)
  srs : List Char
  bbox : List Char × List Char × List Char × List Char
  size : Nat × Nat
  format : List Char
  transparent : Bool
  time : Option (List Char)

def getMapArgsFor (layer : List Char) (time : Option (List Char)) : GetMapArgs :=
  { layers := [layer]
    srs := "EPSG:3857".toList
    bbox := (strXMIN, strYMIN, strXMAX, strYMAX)
    size := (256, 256)
    format := "image/png".toList
    transparent := true
    time := time }

/-- NasaEarthDataGibsWmsExplorer.get_url_template: fetch one concrete tile
URL (retrying once with the time key popped when the first request raises),
then substitute the reference bounds by the placeholders.  The getmap
operation is a parameter: it is the external capabilities service; an
exception is modelled by an error result. -/
def get_url_template {ε : Type} (getmap : GetMapArgs → Except ε (List Char))
    (layer : List Char) (time : Option (List Char)) : Except ε (List Char) :=
  match getmap (getMapArgsFor layer time) with
  | Except.ok url => Except.ok (formulate_url_template url)
  | Except.error _ =>
    match getmap { getMapArgsFor layer time with time := none } with
    | Except.ok url => Except.ok (formulate_url_template url)
    | Except.error err => Except.error err

/-- A concrete explorer state used as a test fixture. -/
def sampleExplorer : Explorer :=
  { products_layers := [(miscKey, []), ("GPW".toList, [ "L".toList ])]
    product_value := "GPW".toList
    layer_options := [ "L".toList ]
    layer_value := some ("L".toList)
    time_options := []
    time_value := none }

/-- A concrete capabilities service whose only layer has a minute-stepped
temporal extent. -/
def sampleContents : List Char → Option LayerMeta := fun l =>
  if l = "GPW_L".toList then
    some { timepositions := some [ "1970-01-01/1970-01-01T00:02:00Z/PT1M".toList ] }
  else none

/-- A concrete capabilities service whose only layer has no temporal
extent. -/
def sampleContentsNoTime : List Char → Option LayerMeta := fun l =>
  if l = "GPW_L".toList then some { timepositions := none } else none

/-- A concrete getmap operation that rejects requests carrying a time
parameter and accepts the retry without one. -/
def sampleGetmap : GetMapArgs → Except Unit (List Char) := fun a =>
  match a.time with
  | some _ => Except.error ()
  | none => Except.ok ("ok".toList)

theorem pyReplaceF_fuel (pat rep : List Char) :
    ∀ f1 f2 s, s.length ≤ f1 → s.length ≤ f2 →
      pyReplaceF pat rep f1 s = pyReplaceF pat rep f2 s := by
  intro f1
  induction f1 with
  | zero =>
    intro f2 s h1 h2
    have hnil : s = [] := List.length_eq_zero.mp (by omega)
    subst hnil
    cases f2 <;> rfl
  | succ f1 ih =>
    intro f2 s h1 h2
    cases s with
    | nil => cases f2 <;> rfl
    | cons c cs =>
      cases f2 with
      | zero => simp at h2
      | succ f2 =>
        simp only [pyReplaceF]
        by_cases h : pat ≠ [] ∧ pat <+: c :: cs
        · rw [if_pos h, if_pos h]
          have hd := List.length_drop (pat.length - 1) cs
          simp only [List.length_cons] at h1 h2
          rw [ih f2 _ (by omega) (by omega)]
        · rw [if_neg h, if_neg h]
          simp only [List.length_cons] at h1 h2
          rw [ih f2 cs (by omega) (by omega)]

theorem pyReplace_nil (pat rep : List Char) : pyReplace pat rep [] = [] := rfl

theorem pyReplace_cons (pat rep : List Char) (c : Char) (cs : List Char) :
    pyReplace pat rep (c :: cs) =
      if pat ≠ [] ∧ pat <+: (c :: cs) then
        rep ++ pyReplace pat rep (cs.drop (pat.length - 1))
      else c :: pyReplace pat rep cs := by
  show pyReplaceF pat rep (c :: cs).length (c :: cs) = _
  rw [List.length_cons]
  simp only [pyReplaceF]
  unfold pyReplace
  by_cases h : pat ≠ [] ∧ pat <+: c :: cs
  · rw [if_pos h, if_pos h]
    rw [pyReplaceF_fuel pat rep cs.length (cs.drop (pat.length - 1)).length _
      (by rw [List.length_drop]; omega) le_rfl]
  · rw [if_neg h, if_neg h]

theorem countOcc_nil_of_ne (pat : List Char) (h : pat ≠ []) : countOcc pat [] = 0 := by
  simp [countOcc, h]

theorem countOcc_cons (pat : List Char) (c : Char) (cs : List Char) :
    countOcc pat (c :: cs) = (if pat <+: (c :: cs) then 1 else 0) + countOcc pat cs := rfl

theorem le_countOcc_append (pat X R : List Char) :
    countOcc pat R ≤ countOcc pat (X ++ R) := by
  induction X with
  | nil => simp
  | cons c cs ih =>
    rw [List.cons_append, countOcc_cons]
    omega

theorem countOcc_drop_le (pat : List Char) (l : List Char) (k : Nat) :
    countOcc pat (l.drop k) ≤ countOcc pat l := by
  induction l generalizing k with
  | nil => simp
  | cons c cs ih =>
    cases k with
    | zero => simp
    | succ k =>
      rw [List.drop_succ_cons, countOcc_cons]
      exact le_trans (ih k) (by omega)

theorem countOcc_append_ge (pat : List Char) (hp : pat ≠ []) (L R : List Char) :
    countOcc pat L + countOcc pat R ≤ countOcc pat (L ++ R) := by
  induction L with
  | nil => simp [countOcc_nil_of_ne pat hp]
  | cons c L ih =>
    rw [List.cons_append, countOcc_cons, countOcc_cons]
    have hmono : (if pat <+: (c :: L) then 1 else 0) ≤
        (if pat <+: (c :: (L ++ R)) then 1 else 0) := by
      by_cases h : pat <+: (c :: L)
      · have h2 : pat <+: ((c :: L) ++ R) := h.trans ( List.prefix_append _ _)
        rw [List.cons_append] at h2
        simp [h, h2]
      · simp [h]
    omega

theorem one_le_countOcc_self (pat R : List Char) (hp : pat ≠ []) :
    1 ≤ countOcc pat (pat ++ R) := by
  obtain ⟨p, ps, rfl⟩ := List.exists_cons_of_ne_nil hp
  rw [List.cons_append, countOcc_cons]
  have h : (p :: ps) <+: (p :: (ps ++ R)) := by
    rw [← List.cons_append]
    exact List.prefix_append _ _
  simp [h]

theorem one_le_countOcc_mem (pat X R : List Char) (hp : pat ≠ []) :
    1 ≤ countOcc pat (X ++ (pat ++ R)) :=
  le_trans (one_le_countOcc_self pat R hp) (le_countOcc_append pat X _)

/-- If there is no occurrence of pat in s, pyReplace leaves s unchanged. -/
theorem pyReplace_id_of_no_occ (pat rep : List Char) :
    ∀ s, countOcc pat s = 0 → pyReplace pat rep s = s := by
  intro s
  induction s with
  | nil => intro _; rw [pyReplace_nil]
  | cons c cs ih =>
    intro h0
    rw [countOcc_cons] at h0
    have hnp : ¬ pat <+: (c :: cs) := by
      by_contra hc
      simp [hc] at h0
    have hcs : countOcc pat cs = 0 := by omega
    rw [pyReplace_cons, if_neg (by tauto), ih hcs]

theorem countOcc_sandwich (pat X Y : List Char) (hp : pat ≠ [])
    (h : countOcc pat (X ++ Y) = 1) (h1 : 1 ≤ countOcc pat Y) :
    countOcc pat X = 0 ∧ countOcc pat Y = 1 := by
  have := countOcc_append_ge pat hp X Y
  omega

theorem pref_of_append (X A B : List Char) (h : X <+: A ++ B) (hl : X.length ≤ A.length) :
    X <+: A := by
  rw [ List.prefix_iff_eq_take, List.take_append_eq_append_take] at h
  have h2 : X.length - A.length = 0 := by omega
  rw [h2, List.take_zero, List.append_nil] at h
  rw [h]
  exact List.take_prefix _ _

theorem pref_drop_append (X A B : List Char) (h : X <+: A ++ B) (hl : A.length ≤ X.length) :
    X.drop A.length <+: B := by
  rw [ List.prefix_iff_eq_take, List.take_append_eq_append_take,
    List.take_of_length_le hl] at h
  rw [h, List.drop_left]
  exact List.take_prefix _ _

theorem no_pref_both_of_pred (P : Char → Prop) (X Y : List Char)
    (hX : ∀ c ∈ X, P c) (hY : ∀ c ∈ Y, ¬ P c) (hx : X ≠ []) (hy : Y ≠ [])
    (h : X <+: Y ∨ Y <+: X) : False := by
  obtain ⟨a, X', rfl⟩ := List.exists_cons_of_ne_nil hx
  obtain ⟨b, Y', rfl⟩ := List.exists_cons_of_ne_nil hy
  have hab : a = b := by
    rcases h with h | h
    · exact (List.cons_prefix_cons.mp h).1
    · exact ((List.cons_prefix_cons.mp h).1).symm
  exact hY b (List.mem_cons_self b Y') (hab ▸ hX a (List.mem_cons_self a X'))

theorem countOcc_append_left_zero (pat M R : List Char)
    (h : ∀ k r, k < M.length → ¬ pat <+: M.drop k ++ r) :
    countOcc pat (M ++ R) = countOcc pat R := by
  induction M with
  | nil => simp
  | cons m M ih =>
    rw [List.cons_append, countOcc_cons]
    have h0 : ¬ pat <+: m :: (M ++ R) := by
      have := h 0 R (by simp)
      simpa using this
    rw [if_neg h0]
    simp only [Nat.zero_add]
    exact ih (fun k r hk => by
      simpa using h (k + 1) r (by simpa using Nat.succ_lt_succ hk))

theorem countOcc_append_mid_zero (pat M : List Char) (hp : pat ≠ [])
    (hM : PairHyp pat M) (L R : List Char) :
    countOcc pat (L ++ (M ++ R)) = countOcc pat L + countOcc pat R := by
  induction L with
  | nil =>
    rw [List.nil_append, countOcc_nil_of_ne pat hp, Nat.zero_add]
    exact countOcc_append_left_zero pat M R hM.1
  | cons c L ih =>
    rw [List.cons_append, countOcc_cons, countOcc_cons]
    have hiff : (pat <+: c :: (L ++ (M ++ R))) ↔ (pat <+: c :: L) := by
      constructor
      · intro h
        by_cases hl : pat.length ≤ (c :: L).length
        · exact pref_of_append pat (c :: L) (M ++ R) (by rwa [List.cons_append]) hl
        · exact absurd (by rwa [List.cons_append] : pat <+: (c :: L) ++ (M ++ R))
            (hM.2 (c :: L) R (by omega))
      · intro h
        have h2 : pat <+: (c :: L) ++ (M ++ R) := h.trans ( List.prefix_append _ _)
        rwa [List.cons_append] at h2
    rw [if_congr hiff rfl rfl, ih]
    omega

/-- Replacing the unique occurrence of pat. -/
theorem pyReplace_unique (pat rep L R : List Char) (hp : pat ≠ [])
    (h : countOcc pat (L ++ (pat ++ R)) = 1) :
    pyReplace pat rep (L ++ (pat ++ R)) = L ++ (rep ++ R) := by
  induction L with
  | nil =>
    rw [List.nil_append] at h ⊢
    obtain ⟨p, ps, rfl⟩ := List.exists_cons_of_ne_nil hp
    have hpre : (p :: ps) <+: p :: (ps ++ R) := by
      rw [← List.cons_append]
      exact List.prefix_append _ _
    rw [List.cons_append, countOcc_cons, if_pos hpre] at h
    have h0 : countOcc (p :: ps) R = 0 :=
      Nat.le_zero.mp (le_trans (le_countOcc_append _ ps R) (by omega))
    rw [List.cons_append, pyReplace_cons, if_pos ⟨hp, hpre⟩]
    have hlen : (p :: ps).length - 1 = ps.length := by simp
    rw [hlen, List.drop_left, pyReplace_id_of_no_occ _ _ R h0, List.nil_append]
  | cons c L ih =>
    rw [List.cons_append] at h ⊢
    have hge := one_le_countOcc_mem pat L R hp
    rw [countOcc_cons] at h
    have hnp : ¬ pat <+: c :: (L ++ (pat ++ R)) := by
      by_contra hc
      rw [if_pos hc] at h
      omega
    rw [if_neg hnp] at h
    rw [pyReplace_cons, if_neg (by tauto)]
    rw [ih (by omega), List.cons_append]

/-- Any prefix of the output of pyReplace is a prefix of the input, or else
overlaps an inserted copy of rep. -/
theorem pref_pyReplace (pat rep : List Char) :
    ∀ (s q : List Char), q <+: pyReplace pat rep s →
      q <+: s ∨ ∃ l r, l.length < q.length ∧ q <+: l ++ (rep ++ r) := by
  intro s
  induction s with
  | nil =>
    intro q h
    rw [pyReplace_nil] at h
    exact Or.inl h
  | cons c cs ih =>
    intro q h
    rw [pyReplace_cons] at h
    by_cases hc : pat ≠ [] ∧ pat <+: c :: cs
    · rw [if_pos hc] at h
      cases q with
      | nil => exact Or.inl ( List.nil_prefix)
      | cons a q' =>
        exact Or.inr ⟨[], pyReplace pat rep (cs.drop (pat.length - 1)), by simp,
          by simpa using h⟩
    · rw [if_neg hc] at h
      cases q with
      | nil => exact Or.inl ( List.nil_prefix)
      | cons a q' =>
        rw [List.cons_prefix_cons] at h
        obtain ⟨rfl, h2⟩ := h
        rcases ih q' h2 with h3 | ⟨l, r, hl, h4⟩
        · exact Or.inl (List.cons_prefix_cons.mpr ⟨rfl, h3⟩)
        · refine Or.inr ⟨a :: l, r, by simpa using Nat.succ_lt_succ hl, ?_⟩
          rw [List.cons_append]
          exact List.cons_prefix_cons.mpr ⟨rfl, h4⟩

/-- pyReplace with an overlap-free replacement block creates no new
occurrence of q. -/
theorem countOcc_pyReplace_zero (pat rep q : List Char) (hq : q ≠ [])
    (hH : PairHyp q rep) :
    ∀ s, countOcc q s = 0 → countOcc q (pyReplace pat rep s) = 0 := by
  have main : ∀ n s, s.length ≤ n → countOcc q s = 0 →
      countOcc q (pyReplace pat rep s) = 0 := by
    intro n
    induction n with
    | zero =>
      intro s hs h0
      have hnil : s = [] := List.length_eq_zero.mp (by omega)
      subst hnil
      rw [pyReplace_nil]
      exact countOcc_nil_of_ne q hq
    | succ n ih =>
      intro s hs h0
      cases s with
      | nil =>
        rw [pyReplace_nil]
        exact countOcc_nil_of_ne q hq
      | cons c cs =>
        rw [countOcc_cons] at h0
        have hcs : countOcc q cs = 0 := by omega
        rw [pyReplace_cons]
        by_cases hc : pat ≠ [] ∧ pat <+: c :: cs
        · rw [if_pos hc, countOcc_append_left_zero q rep _ hH.1]
          refine ih _ ?_ ?_
          · have := List.length_drop (pat.length - 1) cs
            simp only [List.length_cons] at hs
            omega
          · exact Nat.le_zero.mp (le_trans (countOcc_drop_le q cs _) hcs.le)
        · rw [if_neg hc, countOcc_cons]
          have h2 : countOcc q (pyReplace pat rep cs) = 0 := by
            refine ih cs ?_ hcs
            simp only [List.length_cons] at hs
            omega
          have h3 : ¬ q <+: c :: pyReplace pat rep cs := by
            intro hpre
            have h4 : q <+: pyReplace pat rep (c :: cs) := by
              rw [pyReplace_cons, if_neg hc]
              exact hpre
            rcases pref_pyReplace pat rep (c :: cs) q h4 with h5 | ⟨l, r, hl, h6⟩
            · rw [if_pos h5] at h0
              omega
            · exact hH.2 l r hl h6
          rw [if_neg h3, h2]
  exact fun s => main s.length s le_rfl

/-- PairHyp follows when pat and M use disjoint character classes. -/
theorem pairHyp_of_alpha (P : Char → Prop) (pat M : List Char)
    (hpat : ∀ c ∈ pat, P c) (hp : pat ≠ []) (hM : ∀ c ∈ M, ¬ P c) (hm : M ≠ []) :
    PairHyp pat M := by
  constructor
  · intro k r hk hpre
    have h1 : M.drop k ≠ [] := by
      intro hnil
      have := congrArg List.length hnil
      rw [List.length_drop] at this
      simp only [List.length_nil] at this
      omega
    refine no_pref_both_of_pred P pat (M.drop k) hpat ?_ hp h1
      ( List.prefix_or_prefix_of_prefix hpre ( List.prefix_append _ _))
    exact fun c hc => hM c (List.mem_of_mem_drop hc)
  · intro l r hl hpre
    have h4 := pref_drop_append pat l (M ++ r) hpre hl.le
    have h5 : pat.drop l.length ≠ [] := by
      intro hnil
      have := congrArg List.length hnil
      rw [List.length_drop] at this
      simp only [List.length_nil] at this
      omega
    refine no_pref_both_of_pred P (pat.drop l.length) M ?_ hM h5 hm
      ( List.prefix_or_prefix_of_prefix h4 ( List.prefix_append _ _))
    exact fun c hc => hpat c (List.mem_of_mem_drop hc)

/-- PairHyp follows from a finite check of all relative alignments of pat
and M (used for the concrete placeholder pairs, which share characters). -/
theorem pairHyp_of_check (pat M : List Char)
    (h1 : ∀ k, k < M.length → ¬ (pat <+: M.drop k) ∧ ¬ (M.drop k <+: pat))
    (h2 : ∀ j, j < pat.length → ¬ (pat.drop j <+: M) ∧ ¬ (M <+: pat.drop j)) :
    PairHyp pat M := by
  constructor
  · intro k r hk hpre
    rcases List.prefix_or_prefix_of_prefix hpre ( List.prefix_append (M.drop k) r)
      with h | h
    · exact (h1 k hk).1 h
    · exact (h1 k hk).2 h
  · intro l r hl hpre
    have h4 := pref_drop_append pat l (M ++ r) hpre hl.le
    rcases List.prefix_or_prefix_of_prefix h4 ( List.prefix_append M r) with h | h
    · exact (h2 l.length hl).1 h
    · exact (h2 l.length hl).2 h

theorem applySubs_append (xs ys : List (List Char × List Char)) (u : List Char) :
    applySubs (xs ++ ys) u = applySubs ys (applySubs xs u) :=
  List.foldl_append _ _ _ _

theorem applySubs_countOcc_zero (q : List Char) (hq : q ≠ [])
    (subs : List (List Char × List Char)) (h : ∀ x ∈ subs, PairHyp q x.2) :
    ∀ u, countOcc q u = 0 → countOcc q (applySubs subs u) = 0 := by
  induction subs with
  | nil => intro u h0; exact h0
  | cons x xs ih =>
    intro u h0
    have h1 : countOcc q (pyReplace x.1 x.2 u) = 0 :=
      countOcc_pyReplace_zero x.1 x.2 q hq (h x (List.mem_cons_self x xs)) u h0
    exact ih (fun y hy => h y (List.mem_cons_of_mem x hy)) _ h1

/-- If the pattern of one substitution in a chain does not occur in the
input, and its replacement token neither occurred in the input nor can be
created by the other substitutions, the token is absent from the output:
the template-substitution miss is silent. -/
theorem templateMiss (s ph : List Char) (pre post : List (List Char × List Char))
    (hs : s ≠ []) (hph : ph ≠ [])
    (hpre : ∀ x ∈ pre, PairHyp s x.2 ∧ PairHyp ph x.2)
    (hpost : ∀ x ∈ post, PairHyp ph x.2)
    (u : List Char) (h0 : countOcc s u = 0) (h0p : countOcc ph u = 0) :
    countOcc ph (applySubs (pre ++ (s, ph) :: post) u) = 0 := by
  have hA : countOcc s (applySubs pre u) = 0 :=
    applySubs_countOcc_zero s hs pre (fun x hx => (hpre x hx).1) u h0
  have hB : countOcc ph (applySubs pre u) = 0 :=
    applySubs_countOcc_zero ph hph pre (fun x hx => (hpre x hx).2) u h0p
  rw [applySubs_append]
  have hstep : applySubs ((s, ph) :: post) (applySubs pre u)
      = applySubs post (applySubs pre u) := by
    show applySubs ([(s, ph)] ++ post) (applySubs pre u) = _
    rw [applySubs_append]
    have hid : applySubs [(s, ph)] (applySubs pre u) = applySubs pre u :=
      pyReplace_id_of_no_occ s ph (applySubs pre u) hA
    rw [hid]
  rw [hstep]
  exact applySubs_countOcc_zero ph hph post hpost _ hB

/-- Four chained substitutions, each pattern occurring exactly once in the
input, with every earlier replacement block overlap-free with respect to the
later patterns: the chain replaces exactly the four designated occurrences. -/
theorem subst4 (p1 r1 p2 r2 p3 r3 p4 r4 A0 A1 A2 A3 A4 : List Char)
    (hp1 : p1 ≠ []) (hp2 : p2 ≠ []) (hp3 : p3 ≠ []) (hp4 : p4 ≠ [])
    (h21 : PairHyp p2 r1) (h31 : PairHyp p3 r1) (h32 : PairHyp p3 r2)
    (h41 : PairHyp p4 r1) (h42 : PairHyp p4 r2) (h43 : PairHyp p4 r3)
    (h1 : countOcc p1
      (A0 ++ (p1 ++ (A1 ++ (p2 ++ (A2 ++ (p3 ++ (A3 ++ (p4 ++ A4)))))))) = 1)
    (h2 : countOcc p2
      (A0 ++ (p1 ++ (A1 ++ (p2 ++ (A2 ++ (p3 ++ (A3 ++ (p4 ++ A4)))))))) = 1)
    (h3 : countOcc p3
      (A0 ++ (p1 ++ (A1 ++ (p2 ++ (A2 ++ (p3 ++ (A3 ++ (p4 ++ A4)))))))) = 1)
    (h4 : countOcc p4
      (A0 ++ (p1 ++ (A1 ++ (p2 ++ (A2 ++ (p3 ++ (A3 ++ (p4 ++ A4)))))))) = 1) :
    pyReplace p4 r4 (pyReplace p3 r3 (pyReplace p2 r2 (pyReplace p1 r1
      (A0 ++ (p1 ++ (A1 ++ (p2 ++ (A2 ++ (p3 ++ (A3 ++ (p4 ++ A4))))))))))) =
      A0 ++ (r1 ++ (A1 ++ (r2 ++ (A2 ++ (r3 ++ (A3 ++ (r4 ++ A4))))))) := by
  have e2 := countOcc_sandwich p2 A0
    (p1 ++ (A1 ++ (p2 ++ (A2 ++ (p3 ++ (A3 ++ (p4 ++ A4))))))) hp2 h2
    (by simpa [List.append_assoc] using
      one_le_countOcc_mem p2 (p1 ++ A1) (A2 ++ (p3 ++ (A3 ++ (p4 ++ A4)))) hp2)
  have e2b := countOcc_sandwich p2 p1
    (A1 ++ (p2 ++ (A2 ++ (p3 ++ (A3 ++ (p4 ++ A4)))))) hp2 e2.2
    (by simpa [List.append_assoc] using
      one_le_countOcc_mem p2 A1 (A2 ++ (p3 ++ (A3 ++ (p4 ++ A4)))) hp2)
  have e3 := countOcc_sandwich p3 A0
    (p1 ++ (A1 ++ (p2 ++ (A2 ++ (p3 ++ (A3 ++ (p4 ++ A4))))))) hp3 h3
    (by simpa [List.append_assoc] using
      one_le_countOcc_mem p3 (p1 ++ (A1 ++ (p2 ++ A2))) (A3 ++ (p4 ++ A4)) hp3)
  have e3b := countOcc_sandwich p3 p1
    (A1 ++ (p2 ++ (A2 ++ (p3 ++ (A3 ++ (p4 ++ A4)))))) hp3 e3.2
    (by simpa [List.append_assoc] using
      one_le_countOcc_mem p3 (A1 ++ (p2 ++ A2)) (A3 ++ (p4 ++ A4)) hp3)
  have e3c := countOcc_sandwich p3 A1
    (p2 ++ (A2 ++ (p3 ++ (A3 ++ (p4 ++ A4))))) hp3 e3b.2
    (by simpa [List.append_assoc] using
      one_le_countOcc_mem p3 (p2 ++ A2) (A3 ++ (p4 ++ A4)) hp3)
  have e3d := countOcc_sandwich p3 p2
    (A2 ++ (p3 ++ (A3 ++ (p4 ++ A4)))) hp3 e3c.2
    (by simpa [List.append_assoc] using
      one_le_countOcc_mem p3 A2 (A3 ++ (p4 ++ A4)) hp3)
  have e4 := countOcc_sandwich p4 A0
    (p1 ++ (A1 ++ (p2 ++ (A2 ++ (p3 ++ (A3 ++ (p4 ++ A4))))))) hp4 h4
    (by simpa [List.append_assoc] using
      one_le_countOcc_mem p4 (p1 ++ (A1 ++ (p2 ++ (A2 ++ (p3 ++ A3))))) A4 hp4)
  have e4b := countOcc_sandwich p4 p1
    (A1 ++ (p2 ++ (A2 ++ (p3 ++ (A3 ++ (p4 ++ A4)))))) hp4 e4.2
    (by simpa [List.append_assoc] using
      one_le_countOcc_mem p4 (A1 ++ (p2 ++ (A2 ++ (p3 ++ A3)))) A4 hp4)
  have e4c := countOcc_sandwich p4 A1
    (p2 ++ (A2 ++ (p3 ++ (A3 ++ (p4 ++ A4))))) hp4 e4b.2
    (by simpa [List.append_assoc] using
      one_le_countOcc_mem p4 (p2 ++ (A2 ++ (p3 ++ A3))) A4 hp4)
  have e4d := countOcc_sandwich p4 p2
    (A2 ++ (p3 ++ (A3 ++ (p4 ++ A4)))) hp4 e4c.2
    (by simpa [List.append_assoc] using
      one_le_countOcc_mem p4 (A2 ++ (p3 ++ A3)) A4 hp4)
  have e4e := countOcc_sandwich p4 A2
    (p3 ++ (A3 ++ (p4 ++ A4))) hp4 e4d.2
    (by simpa [List.append_assoc] using
      one_le_countOcc_mem p4 (p3 ++ A3) A4 hp4)
  have e4f := countOcc_sandwich p4 p3
    (A3 ++ (p4 ++ A4)) hp4 e4e.2
    (by simpa [List.append_assoc] using one_le_countOcc_mem p4 A3 A4 hp4)
  have s1 : pyReplace p1 r1
      (A0 ++ (p1 ++ (A1 ++ (p2 ++ (A2 ++ (p3 ++ (A3 ++ (p4 ++ A4)))))))) =
      A0 ++ (r1 ++ (A1 ++ (p2 ++ (A2 ++ (p3 ++ (A3 ++ (p4 ++ A4))))))) :=
    pyReplace_unique p1 r1 A0
      (A1 ++ (p2 ++ (A2 ++ (p3 ++ (A3 ++ (p4 ++ A4)))))) hp1 h1
  have c2 : countOcc p2
      (A0 ++ (r1 ++ (A1 ++ (p2 ++ (A2 ++ (p3 ++ (A3 ++ (p4 ++ A4)))))))) = 1 := by
    rw [countOcc_append_mid_zero p2 r1 hp2 h21 A0
      (A1 ++ (p2 ++ (A2 ++ (p3 ++ (A3 ++ (p4 ++ A4)))))), e2.1, e2b.2]
  have s2 : pyReplace p2 r2
      (A0 ++ (r1 ++ (A1 ++ (p2 ++ (A2 ++ (p3 ++ (A3 ++ (p4 ++ A4)))))))) =
      A0 ++ (r1 ++ (A1 ++ (r2 ++ (A2 ++ (p3 ++ (A3 ++ (p4 ++ A4))))))) := by
    have hu := pyReplace_unique p2 r2 (A0 ++ (r1 ++ A1))
      (A2 ++ (p3 ++ (A3 ++ (p4 ++ A4)))) hp2
      (by simpa [List.append_assoc] using c2)
    simpa [List.append_assoc] using hu
  have c3 : countOcc p3
      (A0 ++ (r1 ++ (A1 ++ (r2 ++ (A2 ++ (p3 ++ (A3 ++ (p4 ++ A4)))))))) = 1 := by
    rw [countOcc_append_mid_zero p3 r1 hp3 h31 A0
      (A1 ++ (r2 ++ (A2 ++ (p3 ++ (A3 ++ (p4 ++ A4)))))),
      countOcc_append_mid_zero p3 r2 hp3 h32 A1
      (A2 ++ (p3 ++ (A3 ++ (p4 ++ A4)))), e3.1, e3c.1, e3d.2]
  have s3 : pyReplace p3 r3
      (A0 ++ (r1 ++ (A1 ++ (r2 ++ (A2 ++ (p3 ++ (A3 ++ (p4 ++ A4)))))))) =
      A0 ++ (r1 ++ (A1 ++ (r2 ++ (A2 ++ (r3 ++ (A3 ++ (p4 ++ A4))))))) := by
    have hu := pyReplace_unique p3 r3 (A0 ++ (r1 ++ (A1 ++ (r2 ++ A2))))
      (A3 ++ (p4 ++ A4)) hp3 (by simpa [List.append_assoc] using c3)
    simpa [List.append_assoc] using hu
  have c4 : countOcc p4
      (A0 ++ (r1 ++ (A1 ++ (r2 ++ (A2 ++ (r3 ++ (A3 ++ (p4 ++ A4)))))))) = 1 := by
    rw [countOcc_append_mid_zero p4 r1 hp4 h41 A0
      (A1 ++ (r2 ++ (A2 ++ (r3 ++ (A3 ++ (p4 ++ A4)))))),
      countOcc_append_mid_zero p4 r2 hp4 h42 A1
      (A2 ++ (r3 ++ (A3 ++ (p4 ++ A4)))),
      countOcc_append_mid_zero p4 r3 hp4 h43 A2 (A3 ++ (p4 ++ A4)),
      e4.1, e4c.1, e4e.1, e4f.2]
  have s4 : pyReplace p4 r4
      (A0 ++ (r1 ++ (A1 ++ (r2 ++ (A2 ++ (r3 ++ (A3 ++ (p4 ++ A4)))))))) =
      A0 ++ (r1 ++ (A1 ++ (r2 ++ (A2 ++ (r3 ++ (A3 ++ (r4 ++ A4))))))) := by
    have hu := pyReplace_unique p4 r4
      (A0 ++ (r1 ++ (A1 ++ (r2 ++ (A2 ++ (r3 ++ A3)))))) A4 hp4
      (by simpa [List.append_assoc] using c4)
    simpa [List.append_assoc] using hu
  rw [s1, s2, s3, s4]

theorem phXMIN_ne : phXMIN ≠ [] := by decide

theorem phYMIN_ne : phYMIN ≠ [] := by decide

theorem phXMAX_ne : phXMAX ≠ [] := by decide

theorem phYMAX_ne : phYMAX ≠ [] := by decide

theorem phXMIN_nondec : ∀ c ∈ phXMIN, ¬ isDec c := by decide

theorem phYMIN_nondec : ∀ c ∈ phYMIN, ¬ isDec c := by decide

theorem phXMAX_nondec : ∀ c ∈ phXMAX, ¬ isDec c := by decide

theorem phYMAX_nondec : ∀ c ∈ phYMAX, ¬ isDec c := by decide

/-- A decimal coordinate string cannot overlap a placeholder block. -/
theorem pairHyp_dec_ph (s ph : List Char) (hs : DecStr s) (hph : ph ≠ [])
    (hphn : ∀ c ∈ ph, ¬ isDec c) : PairHyp s ph :=
  pairHyp_of_alpha isDec s ph hs.2 hs.1 hphn hph

/-- A placeholder cannot overlap an inserted decimal coordinate string. -/
theorem pairHyp_ph_dec (ph s : List Char) (hs : DecStr s) (hph : ph ≠ [])
    (hphn : ∀ c ∈ ph, ¬ isDec c) : PairHyp ph s :=
  pairHyp_of_alpha (fun c => ¬ isDec c) ph s hphn hph
    (fun c hc h => h (hs.2 c hc)) hs.1

theorem pairHyp_XMIN_YMIN : PairHyp phXMIN phYMIN :=
  pairHyp_of_check _ _ (by decide) (by decide)

theorem pairHyp_XMIN_XMAX : PairHyp phXMIN phXMAX :=
  pairHyp_of_check _ _ (by decide) (by decide)

theorem pairHyp_XMIN_YMAX : PairHyp phXMIN phYMAX :=
  pairHyp_of_check _ _ (by decide) (by decide)

theorem pairHyp_YMIN_XMIN : PairHyp phYMIN phXMIN :=
  pairHyp_of_check _ _ (by decide) (by decide)

theorem pairHyp_YMIN_XMAX : PairHyp phYMIN phXMAX :=
  pairHyp_of_check _ _ (by decide) (by decide)

theorem pairHyp_YMIN_YMAX : PairHyp phYMIN phYMAX :=
  pairHyp_of_check _ _ (by decide) (by decide)

theorem pairHyp_XMAX_XMIN : PairHyp phXMAX phXMIN :=
  pairHyp_of_check _ _ (by decide) (by decide)

theorem pairHyp_XMAX_YMIN : PairHyp phXMAX phYMIN :=
  pairHyp_of_check _ _ (by decide) (by decide)

theorem pairHyp_XMAX_YMAX : PairHyp phXMAX phYMAX :=
  pairHyp_of_check _ _ (by decide) (by decide)

theorem pairHyp_YMAX_XMIN : PairHyp phYMAX phXMIN :=
  pairHyp_of_check _ _ (by decide) (by decide)

theorem pairHyp_YMAX_YMIN : PairHyp phYMAX phYMIN :=
  pairHyp_of_check _ _ (by decide) (by decide)

theorem pairHyp_YMAX_XMAX : PairHyp phYMAX phXMAX :=
  pairHyp_of_check _ _ (by decide) (by decide)

/-- C1: for every reference bounding box B (four non-empty decimal
coordinate strings) and every concrete URL built by substituting B's
coordinate strings into a fixed request template that contains each
placeholder exactly once, provided each coordinate string occurs exactly
once in the concrete URL, the substitution step of get_url_template /
formulate_url_template returns exactly the fixed request template (each
placeholder present exactly once, all other characters byte-identical),
and substituting B back into the placeholders reproduces the concrete URL
(round-trip law). -/
theorem C1_buildTemplate_round_trip
    (sx sy sxx syy A0 A1 A2 A3 A4 : List Char)
    (dx : DecStr sx) (dy : DecStr sy) (dxx : DecStr sxx) (dyy : DecStr syy)
    (tX : countOcc phXMIN (tmplOf A0 A1 A2 A3 A4) = 1)
    (tY : countOcc phYMIN (tmplOf A0 A1 A2 A3 A4) = 1)
    (tXX : countOcc phXMAX (tmplOf A0 A1 A2 A3 A4) = 1)
    (tYY : countOcc phYMAX (tmplOf A0 A1 A2 A3 A4) = 1)
    (uX : countOcc sx (urlOf sx sy sxx syy A0 A1 A2 A3 A4) = 1)
    (uY : countOcc sy (urlOf sx sy sxx syy A0 A1 A2 A3 A4) = 1)
    (uXX : countOcc sxx (urlOf sx sy sxx syy A0 A1 A2 A3 A4) = 1)
    (uYY : countOcc syy (urlOf sx sy sxx syy A0 A1 A2 A3 A4) = 1) :
    buildTemplate sx sy sxx syy (urlOf sx sy sxx syy A0 A1 A2 A3 A4)
        = tmplOf A0 A1 A2 A3 A4
    ∧ instantiateTemplate sx sy sxx syy (tmplOf A0 A1 A2 A3 A4)
        = urlOf sx sy sxx syy A0 A1 A2 A3 A4
    ∧ countOcc phXMIN
        (buildTemplate sx sy sxx syy (urlOf sx sy sxx syy A0 A1 A2 A3 A4)) = 1
    ∧ countOcc phYMIN
        (buildTemplate sx sy sxx syy (urlOf sx sy sxx syy A0 A1 A2 A3 A4)) = 1
    ∧ countOcc phXMAX
        (buildTemplate sx sy sxx syy (urlOf sx sy sxx syy A0 A1 A2 A3 A4)) = 1
    ∧ countOcc phYMAX
        (buildTemplate sx sy sxx syy (urlOf sx sy sxx syy A0 A1 A2 A3 A4)) = 1 := by
  have uX' := uX; have uY' := uY; have uXX' := uXX; have uYY' := uYY
  simp only [urlOf] at uX' uY' uXX' uYY'
  have tX' := tX; have tY' := tY; have tXX' := tXX; have tYY' := tYY
  simp only [tmplOf] at tX' tY' tXX' tYY'
  have dir1 : buildTemplate sx sy sxx syy (urlOf sx sy sxx syy A0 A1 A2 A3 A4)
      = tmplOf A0 A1 A2 A3 A4 := by
    simp only [buildTemplate, urlOf, tmplOf]
    exact subst4 sx phXMIN sy phYMIN sxx phXMAX syy phYMAX A0 A1 A2 A3 A4
      dx.1 dy.1 dxx.1 dyy.1
      (pairHyp_dec_ph sy phXMIN dy phXMIN_ne phXMIN_nondec)
      (pairHyp_dec_ph sxx phXMIN dxx phXMIN_ne phXMIN_nondec)
      (pairHyp_dec_ph sxx phYMIN dxx phYMIN_ne phYMIN_nondec)
      (pairHyp_dec_ph syy phXMIN dyy phXMIN_ne phXMIN_nondec)
      (pairHyp_dec_ph syy phYMIN dyy phYMIN_ne phYMIN_nondec)
      (pairHyp_dec_ph syy phXMAX dyy phXMAX_ne phXMAX_nondec)
      uX' uY' uXX' uYY'
  have dir2 : instantiateTemplate sx sy sxx syy (tmplOf A0 A1 A2 A3 A4)
      = urlOf sx sy sxx syy A0 A1 A2 A3 A4 := by
    simp only [instantiateTemplate, urlOf, tmplOf]
    exact subst4 phXMIN sx phYMIN sy phXMAX sxx phYMAX syy A0 A1 A2 A3 A4
      phXMIN_ne phYMIN_ne phXMAX_ne phYMAX_ne
      (pairHyp_ph_dec phYMIN sx dx phYMIN_ne phYMIN_nondec)
      (pairHyp_ph_dec phXMAX sx dx phXMAX_ne phXMAX_nondec)
      (pairHyp_ph_dec phXMAX sy dy phXMAX_ne phXMAX_nondec)
      (pairHyp_ph_dec phYMAX sx dx phYMAX_ne phYMAX_nondec)
      (pairHyp_ph_dec phYMAX sy dy phYMAX_ne phYMAX_nondec)
      (pairHyp_ph_dec phYMAX sxx dxx phYMAX_ne phYMAX_nondec)
      tX' tY' tXX' tYY'
  refine ⟨dir1, dir2, ?_, ?_, ?_, ?_⟩ <;> rw [dir1]
  · exact tX
  · exact tY
  · exact tXX
  · exact tYY

/-- Witness for C1 at the notebooks' own reference bounds and a concrete
WMS request template. -/
theorem C1_buildTemplate_round_trip_witness :
    DecStr strXMIN ∧ DecStr strYMIN ∧ DecStr strXMAX ∧ DecStr strYMAX
    ∧ countOcc phXMIN (tmplOf ("https://svc/wms?SERVICE=WMS&bbox=".toList)
        (",".toList) (",".toList) (",".toList) ("&width=256".toList)) = 1
    ∧ countOcc phYMIN (tmplOf ("https://svc/wms?SERVICE=WMS&bbox=".toList)
        (",".toList) (",".toList) (",".toList) ("&width=256".toList)) = 1
    ∧ countOcc phXMAX (tmplOf ("https://svc/wms?SERVICE=WMS&bbox=".toList)
        (",".toList) (",".toList) (",".toList) ("&width=256".toList)) = 1
    ∧ countOcc phYMAX (tmplOf ("https://svc/wms?SERVICE=WMS&bbox=".toList)
        (",".toList) (",".toList) (",".toList) ("&width=256".toList)) = 1
    ∧ countOcc strXMIN (urlOf strXMIN strYMIN strXMAX strYMAX
        ("https://svc/wms?SERVICE=WMS&bbox=".toList)
        (",".toList) (",".toList) (",".toList) ("&width=256".toList)) = 1
    ∧ countOcc strYMIN (urlOf strXMIN strYMIN strXMAX strYMAX
        ("https://svc/wms?SERVICE=WMS&bbox=".toList)
        (",".toList) (",".toList) (",".toList) ("&width=256".toList)) = 1
    ∧ countOcc strXMAX (urlOf strXMIN strYMIN strXMAX strYMAX
        ("https://svc/wms?SERVICE=WMS&bbox=".toList)
        (",".toList) (",".toList) (",".toList) ("&width=256".toList)) = 1
    ∧ countOcc strYMAX (urlOf strXMIN strYMIN strXMAX strYMAX
        ("https://svc/wms?SERVICE=WMS&bbox=".toList)
        (",".toList) (",".toList) (",".toList) ("&width=256".toList)) = 1
    ∧ buildTemplate strXMIN strYMIN strXMAX strYMAX
        (urlOf strXMIN strYMIN strXMAX strYMAX
          ("https://svc/wms?SERVICE=WMS&bbox=".toList)
          (",".toList) (",".toList) (",".toList) ("&width=256".toList))
      = tmplOf ("https://svc/wms?SERVICE=WMS&bbox=".toList)
          (",".toList) (",".toList) (",".toList) ("&width=256".toList)
    ∧ instantiateTemplate strXMIN strYMIN strXMAX strYMAX
        (tmplOf ("https://svc/wms?SERVICE=WMS&bbox=".toList)
          (",".toList) (",".toList) (",".toList) ("&width=256".toList))
      = urlOf strXMIN strYMIN strXMAX strYMAX
          ("https://svc/wms?SERVICE=WMS&bbox=".toList)
          (",".toList) (",".toList) (",".toList) ("&width=256".toList) := by
  have h := C1_buildTemplate_round_trip strXMIN strYMIN strXMAX strYMAX
    ("https://svc/wms?SERVICE=WMS&bbox=".toList)
    (",".toList) (",".toList) (",".toList) ("&width=256".toList)
    (by decide) (by decide) (by decide) (by decide)
    (by decide) (by decide) (by decide) (by decide)
    (by decide) (by decide) (by decide) (by decide)
  exact ⟨by decide, by decide, by decide, by decide,
    by decide, by decide, by decide, by decide,
    by decide, by decide, by decide, by decide, h.1, h.2.1⟩

theorem buildTemplate_eq_applySubs (sx sy sxx syy u : List Char) :
    buildTemplate sx sy sxx syy u =
      applySubs [(sx, phXMIN), (sy, phYMIN), (sxx, phXMAX), (syy, phYMAX)] u := rfl

/-- C2 (amended): for every input URL U and reference bounds given by
non-empty decimal coordinate strings, if one coordinate string does not
occur in U and the corresponding placeholder token does not already occur
verbatim in U, then the template produced by the substitution step does not
contain that placeholder, and no error is raised (the substitution chain is
a total function): the miss is silent. -/
theorem C2_template_miss_silent (sx sy sxx syy U : List Char) :
    (DecStr sx → countOcc sx U = 0 → countOcc phXMIN U = 0 →
      countOcc phXMIN (buildTemplate sx sy sxx syy U) = 0)
    ∧ (DecStr sy → countOcc sy U = 0 → countOcc phYMIN U = 0 →
      countOcc phYMIN (buildTemplate sx sy sxx syy U) = 0)
    ∧ (DecStr sxx → countOcc sxx U = 0 → countOcc phXMAX U = 0 →
      countOcc phXMAX (buildTemplate sx sy sxx syy U) = 0)
    ∧ (DecStr syy → countOcc syy U = 0 → countOcc phYMAX U = 0 →
      countOcc phYMAX (buildTemplate sx sy sxx syy U) = 0) := by
  refine ⟨fun d h0 h0p => ?_, fun d h0 h0p => ?_, fun d h0 h0p => ?_,
    fun d h0 h0p => ?_⟩ <;> rw [buildTemplate_eq_applySubs]
  · exact templateMiss sx phXMIN []
      [(sy, phYMIN), (sxx, phXMAX), (syy, phYMAX)] d.1 phXMIN_ne
      (by intro x hx; simp at hx)
      (by
        intro x hx
        fin_cases hx
        · exact pairHyp_XMIN_YMIN
        · exact pairHyp_XMIN_XMAX
        · exact pairHyp_XMIN_YMAX)
      U h0 h0p
  · exact templateMiss sy phYMIN [(sx, phXMIN)]
      [(sxx, phXMAX), (syy, phYMAX)] d.1 phYMIN_ne
      (by
        intro x hx
        fin_cases hx
        exact ⟨pairHyp_dec_ph sy phXMIN d phXMIN_ne phXMIN_nondec,
          pairHyp_YMIN_XMIN⟩)
      (by
        intro x hx
        fin_cases hx
        · exact pairHyp_YMIN_XMAX
        · exact pairHyp_YMIN_YMAX)
      U h0 h0p
  · exact templateMiss sxx phXMAX [(sx, phXMIN), (sy, phYMIN)]
      [(syy, phYMAX)] d.1 phXMAX_ne
      (by
        intro x hx
        fin_cases hx
        · exact ⟨pairHyp_dec_ph sxx phXMIN d phXMIN_ne phXMIN_nondec,
            pairHyp_XMAX_XMIN⟩
        · exact ⟨pairHyp_dec_ph sxx phYMIN d phYMIN_ne phYMIN_nondec,
            pairHyp_XMAX_YMIN⟩)
      (by
        intro x hx
        fin_cases hx
        exact pairHyp_XMAX_YMAX)
      U h0 h0p
  · exact templateMiss syy phYMAX [(sx, phXMIN), (sy, phYMIN), (sxx, phXMAX)]
      [] d.1 phYMAX_ne
      (by
        intro x hx
        fin_cases hx
        · exact ⟨pairHyp_dec_ph syy phXMIN d phXMIN_ne phXMIN_nondec,
            pairHyp_YMAX_XMIN⟩
        · exact ⟨pairHyp_dec_ph syy phYMIN d phYMIN_ne phYMIN_nondec,
            pairHyp_YMAX_YMIN⟩
        · exact ⟨pairHyp_dec_ph syy phXMAX d phXMAX_ne phXMAX_nondec,
            pairHyp_YMAX_XMAX⟩)
      (by intro x hx; simp at hx)
      U h0 h0p

/-- Refutation of C2 as stated: a URL that already contains the literal
placeholder token.  The YMIN coordinate string of the reference bounds does
not occur in the URL, yet the template returned by the substitution step
does contain the YMIN placeholder token. -/
theorem C2_counterexample :
    countOcc strYMIN ("q={YMIN}".toList) = 0
    ∧ countOcc phYMIN (formulate_url_template ("q={YMIN}".toList)) ≠ 0 := by
  decide

/-- Witness for C2: a URL without the YMIN coordinate (and without the
literal token) yields a template without the YMIN placeholder. -/
theorem C2_template_miss_silent_witness :
    DecStr strYMIN
    ∧ countOcc strYMIN ("https://svc/wms?no-box-here".toList) = 0
    ∧ countOcc phYMIN ("https://svc/wms?no-box-here".toList) = 0
    ∧ countOcc phYMIN (buildTemplate strXMIN strYMIN strXMAX strYMAX
        ("https://svc/wms?no-box-here".toList)) = 0 :=
  ⟨by decide, by decide, by decide,
    (C2_template_miss_silent strXMIN strYMIN strXMAX strYMAX
      ("https://svc/wms?no-box-here".toList)).2.1
      (by decide) (by decide) (by decide)⟩

theorem mem_insertSorted (x a : List Char) (ys : List (List Char)) :
    a ∈ insertSorted x ys ↔ a = x ∨ a ∈ ys := by
  induction ys with
  | nil => simp [insertSorted]
  | cons y ys ih =>
    by_cases h : charsLe x y
    · simp [insertSorted, h]
    · simp [insertSorted, h, ih]
      tauto

theorem mem_pySorted (a : List Char) (ls : List (List Char)) :
    a ∈ pySorted ls ↔ a ∈ ls := by
  induction ls with
  | nil => simp [pySorted]
  | cons x ls ih =>
    show a ∈ insertSorted x (pySorted ls) ↔ _
    rw [mem_insertSorted, ih]
    simp

theorem length_insertSorted (x : List Char) (ys : List (List Char)) :
    (insertSorted x ys).length = ys.length + 1 := by
  induction ys with
  | nil => rfl
  | cons y ys ih =>
    by_cases h : charsLe x y
    · simp [insertSorted, h]
    · simp [insertSorted, h, ih]

theorem length_pySorted (ls : List (List Char)) :
    (pySorted ls).length = ls.length := by
  induction ls with
  | nil => rfl
  | cons x ls ih =>
    show (insertSorted x (pySorted ls)).length = _
    rw [length_insertSorted, ih]
    rfl

theorem lookupB_insertAppend_self (cat : List (List Char × List (List Char)))
    (k v : List Char) :
    lookupB (insertAppend cat k v) k = some (((lookupB cat k).getD []) ++ [v]) := by
  induction cat with
  | nil => simp [insertAppend, lookupB]
  | cons hd rest ih =>
    obtain ⟨k', vs⟩ := hd
    by_cases h : k' = k
    · subst h
      simp [insertAppend, lookupB]
    · simp [insertAppend, lookupB, h, ih]

theorem lookupB_insertAppend_ne (cat : List (List Char × List (List Char)))
    (k v k' : List Char) (h : k' ≠ k) :
    lookupB (insertAppend cat k v) k' = lookupB cat k' := by
  have hne : k ≠ k' := fun he => h he.symm
  induction cat with
  | nil => simp [insertAppend, lookupB, hne]
  | cons hd rest ih =>
    obtain ⟨k2, vs⟩ := hd
    by_cases h2 : k2 = k
    · subst h2
      simp [insertAppend, lookupB, hne]
    · simp [insertAppend, lookupB, h2, ih]

theorem totalEntries_insertAppend (cat : List (List Char × List (List Char)))
    (k v : List Char) :
    totalEntries (insertAppend cat k v) = totalEntries cat + 1 := by
  induction cat with
  | nil => simp [insertAppend, totalEntries]
  | cons hd rest ih =>
    obtain ⟨k2, vs⟩ := hd
    by_cases h2 : k2 = k
    · subst h2
      simp [insertAppend, totalEntries]
      omega
    · simp [insertAppend, totalEntries, h2] at ih ⊢
      omega

theorem mem_keys_insertAppend (cat : List (List Char × List (List Char)))
    (k v a : List Char) :
    a ∈ (insertAppend cat k v).map Prod.fst ↔ a ∈ cat.map Prod.fst ∨ a = k := by
  induction cat with
  | nil => simp [insertAppend]
  | cons hd rest ih =>
    obtain ⟨k2, vs⟩ := hd
    by_cases h2 : k2 = k
    · subst h2
      simp [insertAppend]
      tauto
    · simp [insertAppend, h2, ih]
      tauto

theorem keys_nodup_insertAppend (cat : List (List Char × List (List Char)))
    (k v : List Char) (h : (cat.map Prod.fst).Nodup) :
    ((insertAppend cat k v).map Prod.fst).Nodup := by
  induction cat with
  | nil => simp [insertAppend]
  | cons hd rest ih =>
    obtain ⟨k2, vs⟩ := hd
    rw [List.map_cons, List.nodup_cons] at h
    by_cases h2 : k2 = k
    · subst h2
      simpa [insertAppend] using h
    · rw [show insertAppend ((k2, vs) :: rest) k v
          = (k2, vs) :: insertAppend rest k v by simp [insertAppend, h2]]
      rw [List.map_cons, List.nodup_cons]
      refine ⟨fun hmem => ?_, ih h.2⟩
      rcases (mem_keys_insertAppend rest k v k2).mp hmem with h3 | h3
      · exact h.1 h3
      · exact h2 h3

theorem mem_bucket_insertAppend (cat : List (List Char × List (List Char)))
    (p k v r : List Char) (h : r ∈ (lookupB cat p).getD []) :
    r ∈ (lookupB (insertAppend cat k v) p).getD [] := by
  by_cases hk : k = p
  · subst hk
    rw [lookupB_insertAppend_self]
    exact List.mem_append_left _ h
  · rw [lookupB_insertAppend_ne cat k v p (fun he => hk he.symm)]
    exact h

theorem mem_bucket_addLayer (cat : List (List Char × List (List Char)))
    (L p r : List Char) (h : r ∈ (lookupB cat p).getD []) :
    r ∈ (lookupB (addLayer cat L) p).getD [] := by
  unfold addLayer
  rcases hsp : splitFirst '_' L with _ | ⟨a, b⟩
  · exact mem_bucket_insertAppend cat p miscKey L r h
  · exact mem_bucket_insertAppend cat p a b r h

theorem addLayer_places (cat : List (List Char × List (List Char))) (L : List Char) :
    (bucketOf L).2 ∈ (lookupB (addLayer cat L) (bucketOf L).1).getD [] := by
  unfold addLayer bucketOf
  rcases hsp : splitFirst '_' L with _ | ⟨a, b⟩
  · simp only [lookupB_insertAppend_self, Option.getD_some]
    exact List.mem_append_right _ (List.mem_singleton.mpr rfl)
  · simp only [lookupB_insertAppend_self, Option.getD_some]
    exact List.mem_append_right _ (List.mem_singleton.mpr rfl)

theorem mem_bucket_foldl (ls : List (List Char)) :
    ∀ (cat : List (List Char × List (List Char))) (p r : List Char),
      r ∈ (lookupB cat p).getD [] →
      r ∈ (lookupB (List.foldl addLayer cat ls) p).getD [] := by
  induction ls with
  | nil => intro cat p r h; exact h
  | cons x ls ih =>
    intro cat p r h
    rw [List.foldl_cons]
    exact ih (addLayer cat x) p r (mem_bucket_addLayer cat x p r h)

theorem foldl_places (ls : List (List Char)) :
    ∀ (cat : List (List Char × List (List Char))) (L : List Char), L ∈ ls →
      (bucketOf L).2 ∈ (lookupB (List.foldl addLayer cat ls) (bucketOf L).1).getD [] := by
  induction ls with
  | nil => intro cat L h; simp at h
  | cons x ls ih =>
    intro cat L hL
    rw [List.foldl_cons]
    rcases List.mem_cons.mp hL with rfl | hL
    · exact mem_bucket_foldl ls (addLayer cat L) _ _ (addLayer_places cat L)
    · exact ih (addLayer cat x) L hL

theorem totalEntries_addLayer (cat : List (List Char × List (List Char)))
    (L : List Char) : totalEntries (addLayer cat L) = totalEntries cat + 1 := by
  unfold addLayer
  rcases hsp : splitFirst '_' L with _ | ⟨a, b⟩
  · exact totalEntries_insertAppend cat miscKey L
  · exact totalEntries_insertAppend cat a b

theorem totalEntries_foldl (ls : List (List Char)) :
    ∀ cat, totalEntries (List.foldl addLayer cat ls) = totalEntries cat + ls.length := by
  induction ls with
  | nil => intro cat; rfl
  | cons x ls ih =>
    intro cat
    rw [List.foldl_cons, ih (addLayer cat x), totalEntries_addLayer]
    simp only [List.length_cons]
    omega

theorem keys_nodup_addLayer (cat : List (List Char × List (List Char)))
    (L : List Char) (h : (cat.map Prod.fst).Nodup) :
    ((addLayer cat L).map Prod.fst).Nodup := by
  unfold addLayer
  rcases hsp : splitFirst '_' L with _ | ⟨a, b⟩
  · exact keys_nodup_insertAppend cat miscKey L h
  · exact keys_nodup_insertAppend cat a b h

theorem keys_nodup_foldl (ls : List (List Char)) :
    ∀ cat, (cat.map Prod.fst).Nodup →
      ((List.foldl addLayer cat ls).map Prod.fst).Nodup := by
  induction ls with
  | nil => intro cat h; exact h
  | cons x ls ih =>
    intro cat h
    rw [List.foldl_cons]
    exact ih (addLayer cat x) (keys_nodup_addLayer cat x h)

/-- C3: the catalog built at construction assigns each layer identifier to
exactly one product bucket: identifiers with an underscore are split on the
first underscore into (product, layer name) and placed in that product's
bucket, identifiers without an underscore go unmodified into the
Miscellaneous bucket; the catalog's keys are distinct, the total number of
stored names equals the number of identifiers, and the three-layer example
yields exactly the GPW and Miscellaneous buckets of the spec. -/
theorem C3_catalog_bucketing :
    (∀ (contents : List (List Char)) (L : List Char), L ∈ contents →
      (bucketOf L).2 ∈ (lookupB (explorer_products_layers contents) (bucketOf L).1).getD [])
    ∧ (∀ contents : List (List Char),
      totalEntries (explorer_products_layers contents) = contents.length)
    ∧ (∀ contents : List (List Char),
      ((explorer_products_layers contents).map Prod.fst).Nodup)
    ∧ explorer_products_layers
        [ "GPW_Population_Density_2000".toList, "GPW_Population_Density_2020".toList,
          "Water Bodies".toList ]
      = [(miscKey, [ "Water Bodies".toList ]),
         ("GPW".toList,
          [ "Population_Density_2000".toList, "Population_Density_2020".toList ])] := by
  refine ⟨?_, ?_, ?_, by decide⟩
  · intro contents L hL
    exact foldl_places (pySorted contents) _ L ((mem_pySorted L contents).mpr hL)
  · intro contents
    unfold explorer_products_layers buildCatalog
    rw [totalEntries_foldl, length_pySorted]
    simp [totalEntries]
  · intro contents
    unfold explorer_products_layers buildCatalog
    exact keys_nodup_foldl (pySorted contents) _ (by simp)

/-- Witness for C3: the underscored example identifier lands, stripped of
its product prefix, in the GPW bucket of the example catalog. -/
theorem C3_catalog_bucketing_witness :
    ("GPW_Population_Density_2000".toList
      ∈ [ "GPW_Population_Density_2000".toList, "GPW_Population_Density_2020".toList,
          "Water Bodies".toList ])
    ∧ (bucketOf ("GPW_Population_Density_2000".toList)).2 ∈
      (lookupB (explorer_products_layers
          [ "GPW_Population_Density_2000".toList, "GPW_Population_Density_2020".toList,
            "Water Bodies".toList ])
        (bucketOf ("GPW_Population_Density_2000".toList)).1).getD [] :=
  ⟨by decide, C3_catalog_bucketing.1 _ _ (by decide)⟩

theorem lookupB_isSome_insertAppend (cat : List (List Char × List (List Char)))
    (k v q : List Char) (h : (lookupB cat q).isSome) :
    (lookupB (insertAppend cat k v) q).isSome := by
  by_cases hk : k = q
  · subst hk
    rw [lookupB_insertAppend_self]
    rfl
  · rw [lookupB_insertAppend_ne cat k v q (fun he => hk he.symm)]
    exact h

theorem lookupB_isSome_addLayer (cat : List (List Char × List (List Char)))
    (L q : List Char) (h : (lookupB cat q).isSome) :
    (lookupB (addLayer cat L) q).isSome := by
  unfold addLayer
  rcases hsp : splitFirst '_' L with _ | ⟨a, b⟩
  · exact lookupB_isSome_insertAppend cat miscKey L q h
  · exact lookupB_isSome_insertAppend cat a b q h

theorem lookupB_isSome_foldl (ls : List (List Char)) :
    ∀ (cat : List (List Char × List (List Char))) (q : List Char),
      (lookupB cat q).isSome → (lookupB (List.foldl addLayer cat ls) q).isSome := by
  induction ls with
  | nil => intro cat q h; exact h
  | cons x ls ih =>
    intro cat q h
    rw [List.foldl_cons]
    exact ih (addLayer cat x) q (lookupB_isSome_addLayer cat x q h)

theorem lookupB_misc_foldl_empty (ls : List (List Char)) :
    ∀ cat, (∀ L ∈ ls, (bucketOf L).1 ≠ miscKey) →
      lookupB cat miscKey = some [] →
      lookupB (List.foldl addLayer cat ls) miscKey = some [] := by
  induction ls with
  | nil => intro cat _ h0; exact h0
  | cons x ls ih =>
    intro cat hall h0
    rw [List.foldl_cons]
    refine ih (addLayer cat x) (fun L hL => hall L (List.mem_cons_of_mem x hL)) ?_
    have hx := hall x (List.mem_cons_self x ls)
    unfold addLayer
    rcases hsp : splitFirst '_' x with _ | ⟨a, b⟩
    · exact absurd (by simp [bucketOf, hsp]) hx
    · have ha : a ≠ miscKey := by simpa [bucketOf, hsp] using hx
      rw [lookupB_insertAppend_ne cat a b miscKey (fun he => ha he.symm)]
      exact h0

theorem isSome_mem_keys (cat : List (List Char × List (List Char))) (q : List Char)
    (h : (lookupB cat q).isSome) : q ∈ cat.map Prod.fst := by
  induction cat with
  | nil => simp [lookupB] at h
  | cons hd rest ih =>
    obtain ⟨k2, vs⟩ := hd
    by_cases h2 : k2 = q
    · subst h2
      simp
    · rw [lookupB] at h
      rw [if_neg h2] at h
      simp [ih h]

/-- C10 (amended): the catalog always contains the Miscellaneous bucket,
seeded before any identifier is classified, so Miscellaneous is always
among the product options; and when every identifier contains an underscore
whose product prefix is not itself the Miscellaneous sentinel, the
Miscellaneous bucket is empty. -/
theorem C10_misc_bucket_seeded (contents : List (List Char)) :
    (∃ ns, lookupB (explorer_products_layers contents) miscKey = some ns)
    ∧ miscKey ∈ product_options contents
    ∧ ((∀ L ∈ contents, (bucketOf L).1 ≠ miscKey) →
      lookupB (explorer_products_layers contents) miscKey = some []) := by
  have hsome : (lookupB (explorer_products_layers contents) miscKey).isSome := by
    unfold explorer_products_layers buildCatalog
    exact lookupB_isSome_foldl (pySorted contents) _ miscKey (by rfl)
  refine ⟨?_, ?_, ?_⟩
  · exact Option.isSome_iff_exists.mp hsome
  · unfold product_options
    rw [mem_pySorted]
    exact isSome_mem_keys _ miscKey hsome
  · intro hall
    unfold explorer_products_layers buildCatalog
    refine lookupB_misc_foldl_empty (pySorted contents) _ ?_ rfl
    intro L hL
    exact hall L ((mem_pySorted L contents).mp hL)

/-- Refutation of C10 as stated: with the input layer list
["Miscellaneous_foo"] every identifier contains an underscore, yet the
Miscellaneous bucket of the catalog is not empty (the identifier's product
prefix is the sentinel itself, so its stripped name lands there). -/
theorem C10_counterexample :
    (∀ L ∈ [ "Miscellaneous_foo".toList ], ('_' : Char) ∈ L)
    ∧ lookupB (explorer_products_layers [ "Miscellaneous_foo".toList ]) miscKey
        ≠ some [] := by
  decide

/-- Witness for C10 on a single underscored identifier with a non-sentinel
product prefix. -/
theorem C10_misc_bucket_seeded_witness :
    (∀ L ∈ [ "GPW_A".toList ], (bucketOf L).1 ≠ miscKey)
    ∧ lookupB (explorer_products_layers [ "GPW_A".toList ]) miscKey = some [] :=
  ⟨by decide, (C10_misc_bucket_seeded [ "GPW_A".toList ]).2.2 (by decide)⟩

/-- C4 (amended): for every non-empty product string P and non-empty
layer-name string L, get_layer returns L unchanged when P is the
Miscellaneous sentinel and P_L otherwise, regardless of the widget state;
in particular on the two instances named by the spec.  (Empty strings are
excluded: Python's `or` makes an empty argument fall back to the widget's
current value.) -/
theorem C4_get_layer_qualified :
    (∀ (pw : List Char) (lw : Option (List Char)) (P L : List Char),
      P ≠ [] → L ≠ [] →
      get_layer pw lw (some P) (some L)
        = some (if P = miscKey then L else P ++ ('_' :: L)))
    ∧ (∀ (pw : List Char) (lw : Option (List Char)),
      get_layer pw lw (some miscKey) (some ("Water Bodies".toList))
        = some ("Water Bodies".toList))
    ∧ (∀ (pw : List Char) (lw : Option (List Char)),
      get_layer pw lw (some ("GPW".toList)) (some ("Population_Density_2000".toList))
        = some ("GPW_Population_Density_2000".toList)) := by
  have main : ∀ (pw : List Char) (lw : Option (List Char)) (P L : List Char),
      P ≠ [] → L ≠ [] →
      get_layer pw lw (some P) (some L)
        = some (if P = miscKey then L else P ++ ('_' :: L)) := by
    intro pw lw P L hP hL
    unfold get_layer
    rw [show orElse (some P) (some pw) = some P by simp [orElse, hP]]
    simp only [Option.getD_some]
    rw [show orElse (some L) lw = some L by simp [orElse, hL]]
    by_cases hm : P = miscKey
    · rw [if_pos hm, if_pos hm]
    · rw [if_neg hm, if_neg hm]
      simp [pyStrO]
  refine ⟨main, fun pw lw => ?_, fun pw lw => ?_⟩
  · rw [main pw lw _ _ (by decide) (by decide)]
    simp
  · rw [main pw lw _ _ (by decide) (by decide)]
    rw [if_neg (by decide)]
    rfl

/-- Refutation of C4 as stated: with an empty layer-name string the code
falls back to the Layer widget's current value (Python `or`), so the result
is not P followed by an underscore and the empty name. -/
theorem C4_counterexample :
    get_layer ("w".toList) (some ("W".toList)) (some ("GPW".toList)) (some [])
      = some ("GPW_W".toList)
    ∧ get_layer ("w".toList) (some ("W".toList)) (some ("GPW".toList)) (some [])
      ≠ some ("GPW_".toList) := by
  decide

/-- Witness for C4 at the sentinel product. -/
theorem C4_get_layer_qualified_witness :
    miscKey ≠ ([] : List Char) ∧ "X".toList ≠ ([] : List Char)
    ∧ get_layer [] none (some miscKey) (some ("X".toList))
      = some (if miscKey = miscKey then "X".toList
              else miscKey ++ ('_' :: "X".toList)) :=
  ⟨by decide, by decide,
    C4_get_layer_qualified.1 [] none miscKey ("X".toList) (by decide) (by decide)⟩

theorem rangeList_head (s f : Int) (n : Nat) :
    (rangeList s f (n + 1)).head? = some s := rfl

theorem rangeList_chain_step (f : Int) : ∀ (n : Nat) (s : Int),
    List.Chain' (fun a b => b = a + f) (rangeList s f n) := by
  intro n
  induction n with
  | zero => intro s; simp [rangeList]
  | succ n ih =>
    intro s
    rw [show rangeList s f (n + 1) = s :: rangeList (s + f) f n from rfl,
      List.chain'_cons']
    refine ⟨?_, ih (s + f)⟩
    intro b hb
    cases n with
    | zero => simp [rangeList] at hb
    | succ m =>
      rw [show rangeList (s + f) f (m + 1) = (s + f) :: rangeList (s + f + f) f m
        from rfl] at hb
      simp at hb
      exact hb.symm

theorem rangeList_getLast (f : Int) : ∀ (n : Nat) (s : Int),
    (rangeList s f (n + 1)).getLast? = some (s + n * f) := by
  intro n
  induction n with
  | zero => intro s; simp [rangeList]
  | succ m ih =>
    intro s
    show (s :: ((s + f) :: rangeList (s + f + f) f m)).getLast? = _
    rw [List.getLast?_cons_cons]
    have h := ih (s + f)
    rw [show rangeList (s + f) f (m + 1) = (s + f) :: rangeList (s + f + f) f m
      from rfl] at h
    rw [h]
    congr 1
    push_cast
    ring

/-- The materialized date range starts at ini, steps by f, is strictly
increasing, and its last element is at most fin while the next step would
exceed fin. -/
theorem date_range_spec (ini fin f : Int) (hf : 0 < f) (hle : ini ≤ fin) :
    (date_range ini fin f).head? = some ini
    ∧ List.Chain' (fun a b => b = a + f) (date_range ini fin f)
    ∧ List.Chain' (fun a b : Int => a < b) (date_range ini fin f)
    ∧ ∃ m, (date_range ini fin f).getLast? = some m ∧ m ≤ fin ∧ fin < m + f := by
  have hq : (((fin - ini) / f).toNat : Int) = (fin - ini) / f :=
    Int.toNat_of_nonneg (Int.ediv_nonneg (by omega) (by omega))
  unfold date_range
  rw [if_pos ⟨hf, hle⟩]
  refine ⟨rangeList_head ini f _, rangeList_chain_step f _ ini, ?_, ?_⟩
  · exact (rangeList_chain_step f _ ini).imp (fun a b hab => by omega)
  · refine ⟨ini + (((fin - ini) / f).toNat : Int) * f, rangeList_getLast f _ ini,
      ?_, ?_⟩
    · have hmod := Int.emod_add_ediv (fin - ini) f
      have h1 : 0 ≤ (fin - ini) % f := Int.emod_nonneg _ (by omega)
      have hc := mul_comm ((fin - ini) / f) f
      rw [hq]
      linarith
    · have hmod := Int.emod_add_ediv (fin - ini) f
      have h2 : (fin - ini) % f < f := Int.emod_lt_of_pos _ hf
      have hc := mul_comm ((fin - ini) / f) f
      rw [hq]
      linarith

/-- C5: when the current layer has a temporal-extent descriptor
start/end/period whose period parses as a duration (and the descriptor is
non-degenerate: positive period, start at most end), the layer-change
handler sets the time options to the materialized sequence of timestamps
formatted as ISO instants: the sequence starts at start, increments by the
period, is strictly increasing, its last element is at most end and the
next increment would exceed end; the current time becomes the first
element. -/
theorem C5_update_time_options (contents : List Char → Option LayerMeta)
    (parse : List Char → Option Int) (e : Explorer) (layer tp0 : List Char)
    (tps : List (List Char)) (ini fin step : List Char) (f ti tf : Int)
    (hlay : get_layer e.product_value e.layer_value none none = some layer)
    (hc : contents layer = some { timepositions := some (tp0 :: tps) })
    (hsp : splitOnChar '/' tp0 = [ini, fin, step])
    (hparse : parse step = some f)
    (hti : parseTs ini = some ti) (htf : parseTs fin = some tf)
    (hf : 0 < f) (hle : ti ≤ tf) :
    ∃ e', update_time contents parse e = some e'
      ∧ e'.time_options = (date_range ti tf f).map epochToIso
      ∧ e'.time_value = some (epochToIso ti)
      ∧ (date_range ti tf f).head? = some ti
      ∧ List.Chain' (fun a b => b = a + f) (date_range ti tf f)
      ∧ List.Chain' (fun a b : Int => a < b) (date_range ti tf f)
      ∧ ∃ m, (date_range ti tf f).getLast? = some m ∧ m ≤ tf ∧ tf < m + f := by
  obtain ⟨hhead, hchain, hmono, hlast⟩ := date_range_spec ti tf f hf hle
  have hfreq : freq_seconds parse step = some f := by
    simp [freq_seconds, computeFreq, hparse]
  rcases hdr : date_range ti tf f with _ | ⟨d, ds⟩
  · rw [hdr] at hhead
    simp at hhead
  · have hd : d = ti := by
      rw [hdr] at hhead
      simpa using hhead
    refine ⟨{ e with time_options := (d :: ds).map epochToIso,
                     time_value := some (epochToIso d) }, ?_, rfl, ?_,
      hdr ▸ hhead, hdr ▸ hchain, hdr ▸ hmono, hdr ▸ hlast⟩
    · simp only [update_time, hlay, hc, Option.getD_some, hsp, hfreq, hti, htf,
        hdr, List.map_cons]
    · rw [hd]

/-- Witness for C5 on the fixture explorer, a minute-stepped two-minute
extent. -/
theorem C5_update_time_options_witness :
    sampleExplorer.layer_value = some ("L".toList)
    ∧ get_layer sampleExplorer.product_value sampleExplorer.layer_value none none
        = some ("GPW_L".toList)
    ∧ sampleContents ("GPW_L".toList)
        = some { timepositions := some [ "1970-01-01/1970-01-01T00:02:00Z/PT1M".toList ] }
    ∧ splitOnChar '/' ("1970-01-01/1970-01-01T00:02:00Z/PT1M".toList)
        = [ "1970-01-01".toList, "1970-01-01T00:02:00Z".toList, "PT1M".toList ]
    ∧ pdTimedelta ("PT1M".toList) = some 60
    ∧ parseTs ("1970-01-01".toList) = some 0
    ∧ parseTs ("1970-01-01T00:02:00Z".toList) = some 120
    ∧ (0 : Int) < 60 ∧ (0 : Int) ≤ 120
    ∧ ∃ e', update_time sampleContents pdTimedelta sampleExplorer = some e'
      ∧ e'.time_options = (date_range 0 120 60).map epochToIso
      ∧ e'.time_value = some (epochToIso 0)
      ∧ (date_range 0 120 60).head? = some 0
      ∧ List.Chain' (fun a b => b = a + 60) (date_range 0 120 60)
      ∧ List.Chain' (fun a b : Int => a < b) (date_range 0 120 60)
      ∧ ∃ m, (date_range 0 120 60).getLast? = some m ∧ m ≤ 120 ∧ 120 < m + 60 :=
  ⟨by decide, by decide, by decide, by decide, by decide, by decide, by decide,
    by decide, by decide,
    C5_update_time_options sampleContents pdTimedelta sampleExplorer
      ("GPW_L".toList) ("1970-01-01/1970-01-01T00:02:00Z/PT1M".toList)
      [] ("1970-01-01".toList) ("1970-01-01T00:02:00Z".toList) ("PT1M".toList)
      60 0 120 (by decide) (by decide) (by decide) (by decide)
      (by decide) (by decide) (by decide) (by decide)⟩

/-- C6: the layer-change handler tries the primary duration parser first
and uses its result whenever it succeeds; only on failure does it take the
fallback, which strips the leading P designator from the period string (a
day-count frequency such as 1D for the external range machinery); branch
check on one parseable and one unparseable period string. -/
theorem C6_freq_primary_first :
    (∀ (parse : List Char → Option Int) (step : List Char) (f : Int),
      parse step = some f → computeFreq parse step = Sum.inl f)
    ∧ (∀ (parse : List Char → Option Int) (step : List Char),
      parse step = none → computeFreq parse step = Sum.inr (lstripP step))
    ∧ computeFreq pdTimedelta ("P1D".toList) = Sum.inl 86400
    ∧ computeFreq pdTimedelta ("P5Y".toList) = Sum.inr ("5Y".toList)
    ∧ pdTimedelta ("P1D".toList) = some 86400
    ∧ pdTimedelta ("P5Y".toList) = none
    ∧ alias_seconds ("1D".toList) = some 86400 := by
  refine ⟨?_, ?_, by decide, by decide, by decide, by decide, by decide⟩
  · intro parse step f h
    simp [computeFreq, h]
  · intro parse step h
    simp [computeFreq, h]

/-- Witness for C6 on an hour-period string accepted by the primary
parser. -/
theorem C6_freq_primary_first_witness :
    pdTimedelta ("PT1H".toList) = some 3600
    ∧ computeFreq pdTimedelta ("PT1H".toList) = Sum.inl 3600 :=
  ⟨by decide, C6_freq_primary_first.1 pdTimedelta ("PT1H".toList) 3600 (by decide)⟩

/-- C7: for a layer with no temporal-extent descriptor, the layer-change
handler sets the time options to exactly the one-element sentinel list and
the current time to the sentinel, and the result does not depend on the
duration parser at all (no duration parsing happens on that path). -/
theorem C7_no_temporal_extent (contents : List Char → Option LayerMeta)
    (parse parse' : List Char → Option Int) (e : Explorer) (layer : List Char)
    (hlay : get_layer e.product_value e.layer_value none none = some layer)
    (hc : contents layer = some { timepositions := none }) :
    update_time contents parse e
      = some { e with time_options := [strNA], time_value := some strNA }
    ∧ update_time contents parse e = update_time contents parse' e := by
  have coe : coerce_value [strNA] e.time_value = some strNA := by
    cases hv : e.time_value with
    | none => rfl
    | some x =>
      by_cases hx : x ∈ [strNA]
      · have : x = strNA := by simpa using hx
        simp [coerce_value, hx, this]
      · simp [coerce_value, hx]
  have hgen : ∀ p : List Char → Option Int, update_time contents p e
      = some { e with time_options := [strNA], time_value := some strNA } := by
    intro p
    simp only [update_time, hlay, hc, Option.getD_none, coe]
  exact ⟨hgen parse, (hgen parse).trans (hgen parse').symm⟩

/-- Witness for C7 on the fixture explorer with the extent-free service. -/
theorem C7_no_temporal_extent_witness :
    sampleExplorer.layer_value = some ("L".toList)
    ∧ get_layer sampleExplorer.product_value sampleExplorer.layer_value none none
        = some ("GPW_L".toList)
    ∧ sampleContentsNoTime ("GPW_L".toList) = some { timepositions := none }
    ∧ update_time sampleContentsNoTime pdTimedelta sampleExplorer
      = some { sampleExplorer with
                 time_options := [strNA], time_value := some strNA }
    ∧ update_time sampleContentsNoTime pdTimedelta sampleExplorer
      = update_time sampleContentsNoTime (fun _ => none) sampleExplorer :=
  ⟨by decide, by decide, by decide,
    (C7_no_temporal_extent sampleContentsNoTime pdTimedelta (fun _ => none)
      sampleExplorer ("GPW_L".toList) (by decide) (by decide)).1,
    (C7_no_temporal_extent sampleContentsNoTime pdTimedelta (fun _ => none)
      sampleExplorer ("GPW_L".toList) (by decide) (by decide)).2⟩

/-- C8: in a render request, if the tile-URL request carrying a time
parameter fails, the identical request is retried exactly once with the
time parameter omitted; a successful retry's result is used, and if the
retry also fails, the failure propagates with no further retry. -/
theorem C8_retry_without_time {ε : Type} (getmap : GetMapArgs → Except ε (List Char))
    (layer : List Char) (time : Option (List Char)) :
    (∀ u, getmap (getMapArgsFor layer time) = Except.ok u →
      get_url_template getmap layer time = Except.ok (formulate_url_template u))
    ∧ (∀ err u, getmap (getMapArgsFor layer time) = Except.error err →
      getmap { getMapArgsFor layer time with time := none } = Except.ok u →
      get_url_template getmap layer time = Except.ok (formulate_url_template u))
    ∧ (∀ err err2, getmap (getMapArgsFor layer time) = Except.error err →
      getmap { getMapArgsFor layer time with time := none } = Except.error err2 →
      get_url_template getmap layer time = Except.error err2)
    ∧ { getMapArgsFor layer time with time := none } = getMapArgsFor layer none := by
  refine ⟨?_, ?_, ?_, rfl⟩
  · intro u h
    simp [get_url_template, h]
  · intro err u h1 h2
    simp [get_url_template, h1, h2]
  · intro err err2 h1 h2
    simp [get_url_template, h1, h2]

/-- Witness for C8 on a getmap that rejects timed requests. -/
theorem C8_retry_without_time_witness :
    sampleGetmap (getMapArgsFor ("L".toList) (some ("t".toList))) = Except.error ()
    ∧ sampleGetmap { getMapArgsFor ("L".toList) (some ("t".toList)) with time := none }
      = Except.ok ("ok".toList)
    ∧ get_url_template sampleGetmap ("L".toList) (some ("t".toList))
      = Except.ok (formulate_url_template ("ok".toList)) :=
  ⟨rfl, rfl,
    (C8_retry_without_time sampleGetmap ("L".toList) (some ("t".toList))).2.1
      () ("ok".toList) rfl rfl⟩

/-- C9 (amended): after a product-change event to a product whose catalog
bucket is non-empty, the current layer is a member of that bucket (the
stale layer is never retained). -/
theorem C9_update_layers_membership (e : Explorer) (p : List Char)
    (ls : List (List Char)) (h : lookupB e.products_layers p = some ls)
    (hne : ls ≠ []) :
    ∃ v, (update_layers e p).layer_value = some v ∧ v ∈ ls := by
  have hnn : pySorted ls ≠ [] := by
    intro hnil
    have hlen := length_pySorted ls
    rw [hnil] at hlen
    exact hne (List.length_eq_zero.mp hlen.symm)
  obtain ⟨w, ws, hws⟩ := List.exists_cons_of_ne_nil hnn
  cases hv : e.layer_value with
  | none =>
    refine ⟨w, ?_, ?_⟩
    · simp only [update_layers, h, Option.getD_some, coerce_value, hv, hws,
        List.head?_cons]
    · exact (mem_pySorted w ls).mp (hws ▸ List.mem_cons_self w ws)
  | some x =>
    by_cases hx : x ∈ pySorted ls
    · refine ⟨x, ?_, (mem_pySorted x ls).mp hx⟩
      simp only [update_layers, h, Option.getD_some, coerce_value, hv, if_pos hx]
    · refine ⟨w, ?_, (mem_pySorted w ls).mp (hws ▸ List.mem_cons_self w ws)⟩
      simp only [update_layers, h, Option.getD_some, coerce_value, hv, hws]
      rw [if_neg (hws ▸ hx), List.head?_cons]

/-- Refutation of C9 as stated: changing the product to Miscellaneous while
its bucket is empty leaves no current layer at all (the widget has no
option to choose), so the current layer is not a member of the new
product's layer set. -/
theorem C9_counterexample :
    lookupB sampleExplorer.products_layers miscKey = some []
    ∧ (update_layers sampleExplorer miscKey).layer_value = none
    ∧ ¬ ∃ v, (update_layers sampleExplorer miscKey).layer_value = some v
        ∧ v ∈ (lookupB sampleExplorer.products_layers miscKey).getD [] := by
  refine ⟨by decide, by decide, ?_⟩
  rintro ⟨v, hv, -⟩
  have hnone : (update_layers sampleExplorer miscKey).layer_value = none := by
    decide
  rw [hnone] at hv
  exact Option.noConfusion hv

/-- Witness for C9 on the fixture explorer and its non-empty GPW bucket. -/
theorem C9_update_layers_membership_witness :
    lookupB sampleExplorer.products_layers ("GPW".toList) = some [ "L".toList ]
    ∧ ([ "L".toList ] : List (List Char)) ≠ []
    ∧ ∃ v, (update_layers sampleExplorer ("GPW".toList)).layer_value = some v
        ∧ v ∈ [ "L".toList ] :=
  ⟨by decide, by decide,
    C9_update_layers_membership sampleExplorer ("GPW".toList) [ "L".toList ]
      (by decide) (by decide)⟩

end Cookbook
